import Mathlib

/-!
# Verification of the Email-Validator SMTP core

A shallow embedding, in Lean 4, of the SMTP verification engine of the
Email-Validator repository: the RCPT response interpreter and error
taxonomy (`src/validators/smtpValidator.ts`), the MX probing
orchestrator with catch-all detection, the per-exchanger soft-retry
loop, the SMTP handshake state machine, the in-memory adaptive
throttle store (`utils/throttleState.ts`) and the Redis Lua script
that acquires a distributed throttle slot atomically
(`utils/cache.ts` / `utils/redis.ts`).

TypeScript strings are Lean `String`s; JS numbers used as integers are
`Int` (or `Nat` for SMTP codes and loop counters); timestamps in
milliseconds are `Int`; retry delays (which may be fractional after
multiplication by a backoff factor) are `Rat`.  Fallible code returns
`Except JsError`.  Mutable stores become explicit state passing.
-/

namespace EmailValidator

/-! ## Data model: verdicts, reason codes, results -/

/-- The `SmtpStatus` from `src/types/email.ts` — the five verdicts. -/
inductive SmtpStatus
  | valid
  | invalid
  | unknown
  | catch_all
  | temporarily_unavailable
deriving DecidableEq, Repr

/-- The validation reason codes appearing in the SMTP core. -/
inductive ReasonCode
  | no_mx_records
  | smtp_valid
  | smtp_invalid
  | smtp_catch_all
  | smtp_temporarily_unavailable
  | smtp_greylisted
  | smtp_rate_limited
  | smtp_connection_failed
  | smtp_timeout
  | smtp_banner_timeout
  | smtp_ehlo_timeout
  | smtp_mail_timeout
  | smtp_rcpt_timeout
  | smtp_conn_refused
  | smtp_network_unreachable
  | smtp_conn_reset
  | smtp_tls_required
  | smtp_soft_fails_exceeded
  | smtp_mx_all_failed
deriving DecidableEq, Repr

/-- The `SmtpValidationResult` from `smtpValidator.ts`. -/
structure SmtpValidationResult where
  smtpStatus : SmtpStatus
  reasonCodes : List ReasonCode
  rawSmtpResponse : Option String := none
deriving DecidableEq, Repr

/-- A thrown JavaScript error, as consumed by `mapErrorToResult` and
`isHardBlockError`: its `message` string and optional `code` property
(`'ECONNREFUSED'`, `'ETIMEDOUT'`, ...). -/
structure JsError where
  message : String
  code : Option String := none
deriving DecidableEq, Repr

/-! ## String helpers (JS semantics, over the character lists) -/

/-- Helper for JS `String.prototype.includes`: does `pat` occur as a
contiguous sublist of `l`? -/
def includesAux (pat : List Char) : List Char → Bool
  | [] => pat.isEmpty
  | c :: rest => pat.isPrefixOf (c :: rest) || includesAux pat rest

/-- JS `s.includes(pat)`. -/
def strIncludes (s pat : String) : Bool :=
  includesAux pat.data s.data

/-- JS `s.toLowerCase()` (ASCII, which is all the protocol text uses). -/
def jsToLower (s : String) : String := ⟨s.data.map Char.toLower⟩

/-- JS `s.toUpperCase()` (ASCII). -/
def jsToUpper (s : String) : String := ⟨s.data.map Char.toUpper⟩

/-- JS `s.trim()`. -/
def jsTrim (s : String) : String :=
  ⟨((s.data.dropWhile Char.isWhitespace).reverse.dropWhile Char.isWhitespace).reverse⟩

/-- JS `s.substring(n)`. -/
def strDrop (s : String) (n : Nat) : String := ⟨s.data.drop n⟩

/-! ## `extractSmtpCode` and `interpretSmtpCode` (smtpValidator.ts 1066-1146) -/

/-- The `extractSmtpCode`: match `^(\d{3})` and parse it, else 0. -/
def extractSmtpCode (response : String) : Nat :=
  match response.data with
  | a :: b :: c :: _ =>
    if a.isDigit && b.isDigit && c.isDigit then
      (a.toNat - 48) * 100 + (b.toNat - 48) * 10 + (c.toNat - 48)
    else 0
  | _ => 0

/-- The catch-all/accept-all language scan on the (lower-cased) 2xx
response text. -/
def hasCatchAllLanguage (lowerMessage : String) : Bool :=
  strIncludes lowerMessage "catch-all" ||
  strIncludes lowerMessage "accept all" ||
  strIncludes lowerMessage "accepts all"

/-- The greylisting indicators on a 4xx response (code 450/451/452 or
keywords). -/
def greylistSignal (code : Nat) (lowerMessage : String) : Bool :=
  code == 450 || code == 451 || code == 452 ||
  strIncludes lowerMessage "greylist" ||
  strIncludes lowerMessage "try again" ||
  strIncludes lowerMessage "retry"

/-- The rate-limiting indicators on a 4xx response (code 421/452 or
keywords). -/
def rateLimitSignal (code : Nat) (lowerMessage : String) : Bool :=
  code == 421 || code == 452 ||
  strIncludes lowerMessage "rate" ||
  strIncludes lowerMessage "throttle" ||
  strIncludes lowerMessage "too many"

/-- The `interpretSmtpCode` (smtpValidator.ts 1077-1146). -/
def interpretSmtpCode (code : Nat) (message rawResponse : String) : SmtpValidationResult :=
  if 200 ≤ code ∧ code < 300 then
    if hasCatchAllLanguage (jsToLower message) then
      ⟨.catch_all, [.smtp_catch_all], some rawResponse⟩
    else
      ⟨.valid, [.smtp_valid], some rawResponse⟩
  else if 400 ≤ code ∧ code < 500 then
    ⟨.temporarily_unavailable,
      [.smtp_temporarily_unavailable]
        ++ (if greylistSignal code (jsToLower message) then [.smtp_greylisted] else [])
        ++ (if rateLimitSignal code (jsToLower message) then [.smtp_rate_limited] else []),
      some rawResponse⟩
  else if 500 ≤ code ∧ code < 600 then
    ⟨.invalid, [.smtp_invalid], some rawResponse⟩
  else
    ⟨.unknown, [.smtp_connection_failed], some rawResponse⟩

/-! ## `isHardBlockError` and `mapErrorToResult` (smtpValidator.ts 1148-1256) -/

/-- The block indicators scanned by `isHardBlockError`. -/
def blockIndicators : List String :=
  ["blacklist", "blocked", "banned", "policy", "abuse", "spam", "reputation", "rbl", "dnsbl"]

/-- The `isHardBlockError`. -/
def isHardBlockError (error : JsError) : Bool :=
  blockIndicators.any (fun indicator => strIncludes (jsToLower error.message) indicator)

/-- The `mapErrorToResult` (smtpValidator.ts 1172-1256): the enhanced error
taxonomy.  The `message || '...'` JS fallbacks apply when the message is
the empty string. -/
def mapErrorToResult (error : JsError) : SmtpValidationResult :=
  if 0 < extractSmtpCode error.message then
    interpretSmtpCode (extractSmtpCode error.message) error.message error.message
  else if strIncludes error.message "banner_timeout" then
    ⟨.unknown, [.smtp_banner_timeout, .smtp_timeout], some "Timeout waiting for SMTP banner"⟩
  else if strIncludes error.message "ehlo_timeout" then
    ⟨.unknown, [.smtp_ehlo_timeout, .smtp_timeout], some "Timeout during EHLO handshake"⟩
  else if strIncludes error.message "mail_timeout" then
    ⟨.unknown, [.smtp_mail_timeout, .smtp_timeout], some "Timeout during MAIL FROM"⟩
  else if strIncludes error.message "rcpt_timeout" then
    ⟨.unknown, [.smtp_rcpt_timeout, .smtp_timeout], some "Timeout during RCPT TO"⟩
  else if strIncludes error.message "ECONNREFUSED" || error.code == some "ECONNREFUSED" then
    ⟨.unknown, [.smtp_conn_refused, .smtp_connection_failed],
      some "Connection refused (port 25 closed/filtered)"⟩
  else if strIncludes error.message "ENETUNREACH" || error.code == some "ENETUNREACH" ||
          strIncludes error.message "EHOSTUNREACH" || error.code == some "EHOSTUNREACH" then
    ⟨.unknown, [.smtp_network_unreachable, .smtp_connection_failed],
      some "Network or host unreachable (routing issue)"⟩
  else if strIncludes error.message "ECONNRESET" || error.code == some "ECONNRESET" then
    ⟨.unknown, [.smtp_conn_reset, .smtp_connection_failed],
      some "Connection reset by peer (possibly IP-blocked)"⟩
  else if strIncludes error.message "timeout" || strIncludes error.message "ETIMEDOUT" ||
          error.code == some "ETIMEDOUT" then
    ⟨.unknown, [.smtp_timeout],
      some (if error.message = "" then "Operation timed out" else error.message)⟩
  else
    ⟨.unknown, [.smtp_connection_failed],
      some (if error.message = "" then "Unknown SMTP error" else error.message)⟩

/-! ## Claim C1 -/

/-- Claim C1. For every RCPT response, `interpretSmtpCode` maps the 3-digit
code to the verdict exactly as specified: a code in [200,300) yields
`valid` unless the response text contains catch-all/accept-all language,
in which case `catch_all`; a code in [400,500) yields
`temporarily_unavailable` with reason sub-tags `smtp_greylisted` and/or
`smtp_rate_limited` inferred from the specific code or keywords; a code
in [500,600) yields `invalid`; any other code yields `unknown`; and
every connection fault mapped by `mapErrorToResult` yields `unknown`
with a specific tagged reason (per-phase timeout, connection refused,
network unreachable, connection reset, or generic timeout). -/
theorem interpretSmtpCode_and_mapErrorToResult_spec
    (code : Nat) (message raw : String) (e : JsError) :
    (200 ≤ code → code < 300 →
      interpretSmtpCode code message raw =
        if hasCatchAllLanguage (jsToLower message) then
          ⟨.catch_all, [.smtp_catch_all], some raw⟩
        else ⟨.valid, [.smtp_valid], some raw⟩) ∧
    (400 ≤ code → code < 500 →
      interpretSmtpCode code message raw =
        ⟨.temporarily_unavailable,
          [.smtp_temporarily_unavailable]
            ++ (if greylistSignal code (jsToLower message) then [.smtp_greylisted] else [])
            ++ (if rateLimitSignal code (jsToLower message) then [.smtp_rate_limited] else []),
          some raw⟩) ∧
    (500 ≤ code → code < 600 →
      interpretSmtpCode code message raw = ⟨.invalid, [.smtp_invalid], some raw⟩) ∧
    (¬ (200 ≤ code ∧ code < 300) → ¬ (400 ≤ code ∧ code < 500) → ¬ (500 ≤ code ∧ code < 600) →
      interpretSmtpCode code message raw = ⟨.unknown, [.smtp_connection_failed], some raw⟩) ∧
    (extractSmtpCode e.message = 0 →
      strIncludes e.message "banner_timeout" = true →
      mapErrorToResult e =
        ⟨.unknown, [.smtp_banner_timeout, .smtp_timeout], some "Timeout waiting for SMTP banner"⟩) ∧
    (extractSmtpCode e.message = 0 →
      strIncludes e.message "banner_timeout" = false →
      strIncludes e.message "ehlo_timeout" = true →
      mapErrorToResult e =
        ⟨.unknown, [.smtp_ehlo_timeout, .smtp_timeout], some "Timeout during EHLO handshake"⟩) ∧
    (extractSmtpCode e.message = 0 →
      strIncludes e.message "banner_timeout" = false →
      strIncludes e.message "ehlo_timeout" = false →
      strIncludes e.message "mail_timeout" = true →
      mapErrorToResult e =
        ⟨.unknown, [.smtp_mail_timeout, .smtp_timeout], some "Timeout during MAIL FROM"⟩) ∧
    (extractSmtpCode e.message = 0 →
      strIncludes e.message "banner_timeout" = false →
      strIncludes e.message "ehlo_timeout" = false →
      strIncludes e.message "mail_timeout" = false →
      strIncludes e.message "rcpt_timeout" = true →
      mapErrorToResult e =
        ⟨.unknown, [.smtp_rcpt_timeout, .smtp_timeout], some "Timeout during RCPT TO"⟩) ∧
    (extractSmtpCode e.message = 0 →
      strIncludes e.message "banner_timeout" = false →
      strIncludes e.message "ehlo_timeout" = false →
      strIncludes e.message "mail_timeout" = false →
      strIncludes e.message "rcpt_timeout" = false →
      (strIncludes e.message "ECONNREFUSED" || e.code == some "ECONNREFUSED") = true →
      mapErrorToResult e =
        ⟨.unknown, [.smtp_conn_refused, .smtp_connection_failed],
          some "Connection refused (port 25 closed/filtered)"⟩) ∧
    (extractSmtpCode e.message = 0 →
      strIncludes e.message "banner_timeout" = false →
      strIncludes e.message "ehlo_timeout" = false →
      strIncludes e.message "mail_timeout" = false →
      strIncludes e.message "rcpt_timeout" = false →
      (strIncludes e.message "ECONNREFUSED" || e.code == some "ECONNREFUSED") = false →
      (strIncludes e.message "ENETUNREACH" || e.code == some "ENETUNREACH" ||
        strIncludes e.message "EHOSTUNREACH" || e.code == some "EHOSTUNREACH") = true →
      mapErrorToResult e =
        ⟨.unknown, [.smtp_network_unreachable, .smtp_connection_failed],
          some "Network or host unreachable (routing issue)"⟩) ∧
    (extractSmtpCode e.message = 0 →
      strIncludes e.message "banner_timeout" = false →
      strIncludes e.message "ehlo_timeout" = false →
      strIncludes e.message "mail_timeout" = false →
      strIncludes e.message "rcpt_timeout" = false →
      (strIncludes e.message "ECONNREFUSED" || e.code == some "ECONNREFUSED") = false →
      (strIncludes e.message "ENETUNREACH" || e.code == some "ENETUNREACH" ||
        strIncludes e.message "EHOSTUNREACH" || e.code == some "EHOSTUNREACH") = false →
      (strIncludes e.message "ECONNRESET" || e.code == some "ECONNRESET") = true →
      mapErrorToResult e =
        ⟨.unknown, [.smtp_conn_reset, .smtp_connection_failed],
          some "Connection reset by peer (possibly IP-blocked)"⟩) ∧
    (extractSmtpCode e.message = 0 →
      strIncludes e.message "banner_timeout" = false →
      strIncludes e.message "ehlo_timeout" = false →
      strIncludes e.message "mail_timeout" = false →
      strIncludes e.message "rcpt_timeout" = false →
      (strIncludes e.message "ECONNREFUSED" || e.code == some "ECONNREFUSED") = false →
      (strIncludes e.message "ENETUNREACH" || e.code == some "ENETUNREACH" ||
        strIncludes e.message "EHOSTUNREACH" || e.code == some "EHOSTUNREACH") = false →
      (strIncludes e.message "ECONNRESET" || e.code == some "ECONNRESET") = false →
      (strIncludes e.message "timeout" || strIncludes e.message "ETIMEDOUT" ||
        e.code == some "ETIMEDOUT") = true →
      mapErrorToResult e =
        ⟨.unknown, [.smtp_timeout],
          some (if e.message = "" then "Operation timed out" else e.message)⟩) := by
  refine ⟨?_, ?_, ?_, ?_, ?_, ?_, ?_, ?_, ?_, ?_, ?_, ?_⟩
  · intro h1 h2
    unfold interpretSmtpCode
    rw [if_pos ⟨h1, h2⟩]
  · intro h1 h2
    unfold interpretSmtpCode
    rw [if_neg (by omega), if_pos ⟨h1, h2⟩]
  · intro h1 h2
    unfold interpretSmtpCode
    rw [if_neg (by omega), if_neg (by omega), if_pos ⟨h1, h2⟩]
  · intro h1 h2 h3
    unfold interpretSmtpCode
    rw [if_neg h1, if_neg h2, if_neg h3]
  · intro h0 hb
    simp [mapErrorToResult, h0, hb]
  · intro h0 hb he
    simp [mapErrorToResult, h0, hb, he]
  · intro h0 hb he hm
    simp [mapErrorToResult, h0, hb, he, hm]
  · intro h0 hb he hm hr
    simp [mapErrorToResult, h0, hb, he, hm, hr]
  · intro h0 hb he hm hr hc
    simp [mapErrorToResult, h0, hb, he, hm, hr, hc]
  · intro h0 hb he hm hr hc hn
    simp only [Bool.or_eq_false_iff] at hc
    simp [mapErrorToResult, h0, hb, he, hm, hr, hc.1, hc.2, hn]
  · intro h0 hb he hm hr hc hn hs
    simp only [Bool.or_eq_false_iff] at hc hn
    simp [mapErrorToResult, h0, hb, he, hm, hr, hc.1, hc.2, hn.1.1.1, hn.1.1.2, hn.1.2, hn.2, hs]
  · intro h0 hb he hm hr hc hn hs ht
    simp only [Bool.or_eq_false_iff] at hc hn hs
    simp [mapErrorToResult, h0, hb, he, hm, hr, hc.1, hc.2, hn.1.1.1, hn.1.1.2, hn.1.2, hn.2,
      hs.1, hs.2, ht]

/-- Witness for C1: concrete instances — a 550 RCPT rejection is
`invalid`, and an `ECONNREFUSED` fault is `unknown`/`smtp_conn_refused`. -/
theorem interpretSmtpCode_and_mapErrorToResult_spec_witness :
    interpretSmtpCode 550 "550 5.1.1 No such user" "550 5.1.1 No such user" =
      ⟨.invalid, [.smtp_invalid], some "550 5.1.1 No such user"⟩ ∧
    mapErrorToResult ⟨"connect ECONNREFUSED 192.0.2.1:25", some "ECONNREFUSED"⟩ =
      ⟨.unknown, [.smtp_conn_refused, .smtp_connection_failed],
        some "Connection refused (port 25 closed/filtered)"⟩ := by
  have h := interpretSmtpCode_and_mapErrorToResult_spec 550 "550 5.1.1 No such user"
    "550 5.1.1 No such user" ⟨"connect ECONNREFUSED 192.0.2.1:25", some "ECONNREFUSED"⟩
  exact ⟨h.2.2.1 (by decide) (by decide),
    h.2.2.2.2.2.2.2.2.1 (by decide) (by decide) (by decide) (by decide) (by decide) (by decide)⟩

/-! ## Claim C2: catch-all detection and the orchestration short-circuit

`detectCatchAll` (smtpValidator.ts 1273-1314) probes one exchanger with a
synthesized random address; the embedding takes the outcome of that
`validateSmtpSingle` call (a typed result, or a thrown error) as input.
`validateSmtpCore` embeds steps 3-4 of `validateSmtp` (lines 663-729):
the loop over `mxToTry` that runs the catch-all probe, then the loop
that validates the real address.  The model additionally records a
trace of which connections were attempted (probe vs real address), so
that "the real address is never tested" is expressible. -/

/-- The `MxRecord` from `src/types/email.ts`. -/
structure MxRecord where
  exchange : String
  priority : Int
deriving DecidableEq, Repr

/-- The three-valued catch-all determination. -/
inductive CatchAllVerdict
  | yes
  | no
  | inconclusive
deriving DecidableEq, Repr

/-- The `detectCatchAll`, as a function of the probe outcome: `valid` ⇒
catch-all, `invalid` ⇒ not catch-all, `temporarily_unavailable` /
`unknown` ⇒ inconclusive, a thrown connection error ⇒ inconclusive,
and the default arm (an unexpected `catch_all` status from the probe)
⇒ inconclusive. -/
def detectCatchAll (probeOutcome : Except JsError SmtpValidationResult) : CatchAllVerdict :=
  match probeOutcome with
  | .error _ => .inconclusive
  | .ok result =>
    match result.smtpStatus with
    | .valid => .yes
    | .invalid => .no
    | .temporarily_unavailable => .inconclusive
    | .unknown => .inconclusive
    | .catch_all => .inconclusive

/-- A connection attempt recorded by the instrumented orchestrator:
either a catch-all probe or a test of the real candidate address. -/
inductive AttemptEvent
  | probe (host : String)
  | real (host : String)
deriving DecidableEq, Repr

/-- The TS string literal of each reason code (used only to reproduce
the diagnostic text of the exhaustion result). -/
def reasonCodeStr : ReasonCode → String
  | .no_mx_records => "no_mx_records"
  | .smtp_valid => "smtp_valid"
  | .smtp_invalid => "smtp_invalid"
  | .smtp_catch_all => "smtp_catch_all"
  | .smtp_temporarily_unavailable => "smtp_temporarily_unavailable"
  | .smtp_greylisted => "smtp_greylisted"
  | .smtp_rate_limited => "smtp_rate_limited"
  | .smtp_connection_failed => "smtp_connection_failed"
  | .smtp_timeout => "smtp_timeout"
  | .smtp_banner_timeout => "smtp_banner_timeout"
  | .smtp_ehlo_timeout => "smtp_ehlo_timeout"
  | .smtp_mail_timeout => "smtp_mail_timeout"
  | .smtp_rcpt_timeout => "smtp_rcpt_timeout"
  | .smtp_conn_refused => "smtp_conn_refused"
  | .smtp_network_unreachable => "smtp_network_unreachable"
  | .smtp_conn_reset => "smtp_conn_reset"
  | .smtp_tls_required => "smtp_tls_required"
  | .smtp_soft_fails_exceeded => "smtp_soft_fails_exceeded"
  | .smtp_mx_all_failed => "smtp_mx_all_failed"

/-- The `failureReasons[key] = value` on a JS object: update in place if the
key exists, else append. -/
def setReason : List (String × String) → String → String → List (String × String)
  | [], k, v => [(k, v)]
  | (k', v') :: rest, k, v =>
    if k' = k then (k', v) :: rest else (k', v') :: setReason rest k v

/-- Step 3 of `validateSmtp` (lines 663-688): run the catch-all probe
against successive exchangers; stop at the first definitive answer
(`yes` returns, `no` breaks), skip empty exchanges, continue on
inconclusive.  The loop variable starts as `inconclusive`, so
exhaustion without a definitive answer yields `inconclusive`. -/
def catchAllSweep (probe : String → Except JsError SmtpValidationResult) :
    List MxRecord → CatchAllVerdict × List AttemptEvent
  | [] => (.inconclusive, [])
  | mx :: rest =>
    if mx.exchange = "" then catchAllSweep probe rest
    else
      match detectCatchAll (probe mx.exchange) with
      | .yes => (.yes, [.probe mx.exchange])
      | .no => (.no, [.probe mx.exchange])
      | .inconclusive =>
        let vr := catchAllSweep probe rest
        (vr.1, .probe mx.exchange :: vr.2)

/-- Step 4 of `validateSmtp` (lines 690-729): test the real address
against successive exchangers (each via `validateSmtpWithRetry`, whose
per-host outcome is the input function `real`); return the first
definitive result, record a failure reason otherwise, and fall back to
the `unknown` exhaustion result.  `total` is `mxToTry.length`. -/
def realSweep (real : String → Except JsError SmtpValidationResult) (total : Nat) :
    List MxRecord → List (String × String) → SmtpValidationResult × List AttemptEvent
  | [], failureReasons =>
    (⟨.unknown, [.smtp_mx_all_failed, .smtp_connection_failed],
      some ("All " ++ toString total ++ " MX hosts failed: " ++
        String.intercalate "; " (failureReasons.map (fun p => p.1 ++ "=" ++ p.2)))⟩, [])
  | mx :: rest, failureReasons =>
    if mx.exchange = "" then realSweep real total rest failureReasons
    else
      match real mx.exchange with
      | .ok r =>
        if r.smtpStatus = .valid ∨ r.smtpStatus = .invalid ∨ r.smtpStatus = .catch_all then
          (r, [.real mx.exchange])
        else
          let re := realSweep real total rest
            (setReason failureReasons mx.exchange
              (String.intercalate ", " (r.reasonCodes.map reasonCodeStr)))
          (re.1, .real mx.exchange :: re.2)
      | .error e =>
        let re := realSweep real total rest (setReason failureReasons mx.exchange e.message)
        (re.1, .real mx.exchange :: re.2)

/-- Steps 3-4 of `validateSmtp` over the prepared `mxToTry` list: a
confirmed catch-all short-circuits with verdict `catch_all`; otherwise
the real address is swept. -/
def validateSmtpCore (mxToTry : List MxRecord)
    (probe real : String → Except JsError SmtpValidationResult) :
    SmtpValidationResult × List AttemptEvent :=
  match catchAllSweep probe mxToTry with
  | (.yes, evs) =>
    (⟨.catch_all, [.smtp_catch_all], some "Domain accepts all email addresses (catch-all)"⟩, evs)
  | (_, evs) =>
    let re := realSweep real mxToTry.length mxToTry []
    (re.1, evs ++ re.2)

/-- Every event recorded by the catch-all sweep is a probe attempt. -/
theorem catchAllSweep_events_probe (probe : String → Except JsError SmtpValidationResult) :
    ∀ hosts ev, ev ∈ (catchAllSweep probe hosts).2 → ∃ h, ev = AttemptEvent.probe h := by
  intro hosts
  induction hosts with
  | nil => intro ev hev; simp [catchAllSweep] at hev
  | cons mx rest ih =>
    intro ev hev
    by_cases hx : mx.exchange = ""
    · rw [catchAllSweep, if_pos hx] at hev
      exact ih ev hev
    · rw [catchAllSweep, if_neg hx] at hev
      cases hdet : detectCatchAll (probe mx.exchange) <;> rw [hdet] at hev
      · simp at hev; exact ⟨mx.exchange, hev⟩
      · simp at hev; exact ⟨mx.exchange, hev⟩
      · simp at hev
        rcases hev with hev | hev
        · exact ⟨mx.exchange, hev⟩
        · exact ih ev hev

/-- Claim C2. `detectCatchAll` returns `yes` only when the probe address
was accepted as `valid` and `no` only when it was rejected as `invalid`;
every other outcome (soft failure, unknown, thrown connection error, or
an unexpected status) is `inconclusive`.  If every exchanger's probe is
non-definitive, the sweep's catch-all determination remains
`inconclusive` — never defaulted to "not catch-all".  And a `yes`
short-circuits the orchestration: the verdict is `catch_all` and the
real address is never tested. -/
theorem detectCatchAll_spec (probe real : String → Except JsError SmtpValidationResult)
    (pr : Except JsError SmtpValidationResult) (hosts mxToTry : List MxRecord) :
    (detectCatchAll pr = .yes ↔ ∃ r, pr = .ok r ∧ r.smtpStatus = .valid) ∧
    (detectCatchAll pr = .no ↔ ∃ r, pr = .ok r ∧ r.smtpStatus = .invalid) ∧
    ((∀ mx ∈ hosts, detectCatchAll (probe mx.exchange) = .inconclusive) →
      (catchAllSweep probe hosts).1 = .inconclusive) ∧
    ((catchAllSweep probe mxToTry).1 = .yes →
      (validateSmtpCore mxToTry probe real).1.smtpStatus = .catch_all ∧
      ∀ h, AttemptEvent.real h ∉ (validateSmtpCore mxToTry probe real).2) := by
  refine ⟨?_, ?_, ?_, ?_⟩
  · constructor
    · intro hy
      cases pr with
      | error e => simp [detectCatchAll] at hy
      | ok r =>
        cases hs : r.smtpStatus <;> simp [detectCatchAll, hs] at hy
        exact ⟨r, rfl, hs⟩
    · rintro ⟨r, rfl, hs⟩
      simp [detectCatchAll, hs]
  · constructor
    · intro hn
      cases pr with
      | error e => simp [detectCatchAll] at hn
      | ok r =>
        cases hs : r.smtpStatus <;> simp [detectCatchAll, hs] at hn
        exact ⟨r, rfl, hs⟩
    · rintro ⟨r, rfl, hs⟩
      simp [detectCatchAll, hs]
  · intro hall
    induction hosts with
    | nil => rfl
    | cons mx rest ih =>
      by_cases hx : mx.exchange = ""
      · rw [catchAllSweep, if_pos hx]
        exact ih (fun mx' hmx' => hall mx' (List.mem_cons_of_mem _ hmx'))
      · rw [catchAllSweep, if_neg hx, hall mx (List.mem_cons_self _ _)]
        exact ih (fun mx' hmx' => hall mx' (List.mem_cons_of_mem _ hmx'))
  · intro hyes
    have h1 : validateSmtpCore mxToTry probe real =
        (⟨.catch_all, [.smtp_catch_all], some "Domain accepts all email addresses (catch-all)"⟩,
          (catchAllSweep probe mxToTry).2) := by
      unfold validateSmtpCore
      rcases h : catchAllSweep probe mxToTry with ⟨v, evs⟩
      rw [h] at hyes
      simp at hyes
      subst hyes
      rfl
    rw [h1]
    refine ⟨rfl, fun h hmem => ?_⟩
    obtain ⟨h', hh⟩ := catchAllSweep_events_probe probe mxToTry _ hmem
    simp at hh

/-- Witness for C2: with a probe that is accepted as valid on `mx1`, the
sweep says `yes`, the orchestration verdict is `catch_all`, and no real
attempt appears in the trace. -/
theorem detectCatchAll_spec_witness :
    (catchAllSweep (fun _ => .ok ⟨.valid, [.smtp_valid], none⟩) [⟨"mx1", 10⟩]).1 =
      CatchAllVerdict.yes ∧
    (validateSmtpCore [⟨"mx1", 10⟩] (fun _ => .ok ⟨.valid, [.smtp_valid], none⟩)
        (fun _ => .error ⟨"boom", none⟩)).1.smtpStatus = .catch_all ∧
    ∀ h, AttemptEvent.real h ∉ (validateSmtpCore [⟨"mx1", 10⟩]
      (fun _ => .ok ⟨.valid, [.smtp_valid], none⟩) (fun _ => .error ⟨"boom", none⟩)).2 := by
  have h := detectCatchAll_spec (fun _ => .ok ⟨.valid, [.smtp_valid], none⟩)
    (fun _ => .error ⟨"boom", none⟩) (.ok ⟨.valid, [.smtp_valid], none⟩) [] [⟨"mx1", 10⟩]
  exact ⟨by decide, (h.2.2.2 (by decide)).1, (h.2.2.2 (by decide)).2⟩

/-! ## Claim C6: the soft-retry loop (`validateSmtpWithRetry`, lines 744-806)

The loop calls `validateSmtpSingle` repeatedly; the embedding takes the
outcome of the n-th call as `attempts n` (a typed result, or a thrown
error — the only throwing path is the throttle-slot wait timeout).  The
model returns the result, the number of calls made, and the list of
backoff delays slept, in order.

The `while (attempt <= limit)` loop only leaves through `return` or
`break`, and `attempt` only increments under an `attempt < limit`
guard, so the remaining-retry budget `limit - attempt` is the `fuel`
parameter here.  The source's `lastResult` variable equals the current
result `r` at every `break` site, so the post-loop
`lastResult.reasonCodes.push('smtp_soft_fails_exceeded')` is inlined at
those sites. -/

/-- The `SmtpValidationConfig` (smtpValidator.ts 535-560).  Millisecond
delays that get multiplied by the backoff factor are rationals. -/
structure SmtpValidationConfig where
  maxGlobalConcurrency : Int
  maxMxConcurrency : Int
  perDomainMinIntervalMs : Int
  softRetryLimit : Nat
  initialRetryDelayMs : Rat
  retryBackoffFactor : Rat
  connectTimeoutMs : Int
  overallTimeoutMs : Int
  heloDomain : String
  mailFrom : String
  bannerTimeoutMs : Int
  ehloTimeoutMs : Int
  mailTimeoutMs : Int
  rcptTimeoutMs : Int
  requireTls : Bool
  allowTlsDowngrade : Bool
  maxMxAttempts : Nat
  randomizeSamePriority : Bool
deriving DecidableEq, Repr

/-- The backoff delay before the retry after attempt number `attempt`:
`initialRetryDelayMs * retryBackoffFactor ^ attempt`. -/
def retryDelay (cfg : SmtpValidationConfig) (attempt : Nat) : Rat :=
  cfg.initialRetryDelayMs * cfg.retryBackoffFactor ^ attempt

/-- The definitive statuses, returned immediately by the retry loop. -/
def isDefinitiveStatus (s : SmtpStatus) : Bool :=
  s = SmtpStatus.valid || s = SmtpStatus.invalid || s = SmtpStatus.catch_all

/-- The `lastResult.reasonCodes.push('smtp_soft_fails_exceeded')`. -/
def appendSoftFails (r : SmtpValidationResult) : SmtpValidationResult :=
  { r with reasonCodes := r.reasonCodes ++ [.smtp_soft_fails_exceeded] }

/-- The body of `validateSmtpWithRetry`'s loop; returns (result, number
of calls made, delays slept). -/
def retryGo (cfg : SmtpValidationConfig) (attempts : Nat → Except JsError SmtpValidationResult) :
    Nat → Nat → SmtpValidationResult × Nat × List Rat
  | attempt, fuel =>
    match attempts attempt with
    | .ok r =>
      if isDefinitiveStatus r.smtpStatus then (r, attempt + 1, [])
      else if r.smtpStatus = .temporarily_unavailable then
        match fuel with
        | f + 1 =>
          let q := retryGo cfg attempts (attempt + 1) f
          (q.1, q.2.1, retryDelay cfg attempt :: q.2.2)
        | 0 => (appendSoftFails r, attempt + 1, [])
      else (appendSoftFails r, attempt + 1, [])
    | .error e =>
      match fuel with
      | f + 1 =>
        let q := retryGo cfg attempts (attempt + 1) f
        (q.1, q.2.1, retryDelay cfg attempt :: q.2.2)
      | 0 => (⟨.unknown, [.smtp_connection_failed, .smtp_timeout], some e.message⟩, attempt + 1, [])
  termination_by attempt fuel => fuel

/-- The `validateSmtpWithRetry` (lines 744-806), starting at attempt 0 with
retry budget `softRetryLimit`. -/
def validateSmtpWithRetryModel (cfg : SmtpValidationConfig)
    (attempts : Nat → Except JsError SmtpValidationResult) :
    SmtpValidationResult × Nat × List Rat :=
  retryGo cfg attempts 0 cfg.softRetryLimit

/-- The loop makes at most `fuel + 1` calls beyond the starting attempt. -/
theorem retryGo_calls_le (cfg : SmtpValidationConfig)
    (attempts : Nat → Except JsError SmtpValidationResult) :
    ∀ fuel attempt, (retryGo cfg attempts attempt fuel).2.1 ≤ attempt + 1 + fuel := by
  intro fuel
  induction fuel with
  | zero =>
    intro attempt
    rw [retryGo]
    cases attempts attempt with
    | ok r =>
      dsimp only
      by_cases hd : isDefinitiveStatus r.smtpStatus = true
      · rw [if_pos hd]
      · rw [if_neg hd]
        by_cases ht : r.smtpStatus = .temporarily_unavailable
        · rw [if_pos ht]
        · rw [if_neg ht]
    | error e => dsimp only; omega
  | succ f ih =>
    intro attempt
    rw [retryGo]
    cases attempts attempt with
    | ok r =>
      dsimp only
      by_cases hd : isDefinitiveStatus r.smtpStatus = true
      · rw [if_pos hd]; dsimp only; omega
      · rw [if_neg hd]
        by_cases ht : r.smtpStatus = .temporarily_unavailable
        · rw [if_pos ht]
          have := ih (attempt + 1)
          dsimp only
          omega
        · rw [if_neg ht]; dsimp only; omega
    | error e =>
      have := ih (attempt + 1)
      dsimp only
      omega

/-- If every attempt in the budget window is a soft failure, the loop
uses its whole budget, sleeping the exponential-backoff delays in
order, and surfaces the last soft result with
`smtp_soft_fails_exceeded` appended. -/
theorem retryGo_all_soft (cfg : SmtpValidationConfig)
    (attempts : Nat → Except JsError SmtpValidationResult) :
    ∀ fuel attempt,
      (∀ k, attempt ≤ k → k ≤ attempt + fuel →
        ∃ r, attempts k = .ok r ∧ r.smtpStatus = .temporarily_unavailable) →
      ∃ r, attempts (attempt + fuel) = .ok r ∧
        retryGo cfg attempts attempt fuel =
          (appendSoftFails r, attempt + fuel + 1, (List.range' attempt fuel).map (retryDelay cfg)) := by
  intro fuel
  induction fuel with
  | zero =>
    intro attempt hall
    obtain ⟨r, hr, hs⟩ := hall attempt le_rfl (by omega)
    refine ⟨r, by simpa using hr, ?_⟩
    rw [retryGo, hr]
    dsimp only
    rw [if_neg (by simp [isDefinitiveStatus, hs] : ¬ isDefinitiveStatus r.smtpStatus = true),
      if_pos hs]
    simp
  | succ f ih =>
    intro attempt hall
    obtain ⟨r, hr, hs⟩ := hall attempt le_rfl (by omega)
    obtain ⟨r', hr', heq⟩ := ih (attempt + 1) (fun k hk1 hk2 => hall k (by omega) (by omega))
    refine ⟨r', by rw [show attempt + (f + 1) = attempt + 1 + f by omega]; exact hr', ?_⟩
    rw [retryGo, hr]
    dsimp only
    rw [if_neg (by simp [isDefinitiveStatus, hs] : ¬ isDefinitiveStatus r.smtpStatus = true),
      if_pos hs]
    simp only [heq, List.range'_succ, List.map_cons, Prod.mk.injEq, true_and, and_true]
    omega

/-- Claim C6. The retry loop retries on `temporarily_unavailable` outcomes
only: a definitive result (`valid`/`invalid`/`catch_all`) is returned
immediately with no retry and no delay; a hard `unknown` result (e.g.
connection refused / reset, which `validateSmtpSingle` returns as typed
`unknown` results) is surfaced immediately without retry; the loop
makes at most `softRetryLimit + 1` calls; and when every attempt up to
the limit is soft, it performs exactly `softRetryLimit` retries delayed
by `initialRetryDelayMs × retryBackoffFactor ^ attempt`, then surfaces
the last soft result with `smtp_soft_fails_exceeded` appended. -/
theorem validateSmtpWithRetry_spec (cfg : SmtpValidationConfig)
    (attempts : Nat → Except JsError SmtpValidationResult) :
    (∀ r, attempts 0 = .ok r → isDefinitiveStatus r.smtpStatus = true →
      validateSmtpWithRetryModel cfg attempts = (r, 1, [])) ∧
    (∀ r, attempts 0 = .ok r → r.smtpStatus = .unknown →
      validateSmtpWithRetryModel cfg attempts = (appendSoftFails r, 1, [])) ∧
    (validateSmtpWithRetryModel cfg attempts).2.1 ≤ cfg.softRetryLimit + 1 ∧
    ((∀ k, k ≤ cfg.softRetryLimit →
        ∃ r, attempts k = .ok r ∧ r.smtpStatus = .temporarily_unavailable) →
      ∃ r, attempts cfg.softRetryLimit = .ok r ∧
        validateSmtpWithRetryModel cfg attempts =
          (appendSoftFails r, cfg.softRetryLimit + 1,
            (List.range cfg.softRetryLimit).map (retryDelay cfg))) := by
  refine ⟨?_, ?_, ?_, ?_⟩
  · intro r h0 hd
    rw [validateSmtpWithRetryModel, retryGo, h0]
    dsimp only
    rw [if_pos hd]
  · intro r h0 hu
    rw [validateSmtpWithRetryModel, retryGo, h0]
    dsimp only
    rw [if_neg (by simp [isDefinitiveStatus, hu] : ¬ isDefinitiveStatus r.smtpStatus = true),
      if_neg (by simp [hu] : ¬ r.smtpStatus = SmtpStatus.temporarily_unavailable)]
  · have := retryGo_calls_le cfg attempts cfg.softRetryLimit 0
    rw [validateSmtpWithRetryModel]
    omega
  · intro hall
    obtain ⟨r, hr, heq⟩ := retryGo_all_soft cfg attempts cfg.softRetryLimit 0
      (fun k hk1 hk2 => hall k (by omega))
    refine ⟨r, by simpa using hr, ?_⟩
    rw [validateSmtpWithRetryModel, heq, List.range_eq_range']
    simp

/-- A sample validation configuration with soft-retry limit 2, initial
delay 1000 ms and backoff factor 2. -/
def sampleConfig : SmtpValidationConfig :=
  { maxGlobalConcurrency := 10
    maxMxConcurrency := 3
    perDomainMinIntervalMs := 2000
    softRetryLimit := 2
    initialRetryDelayMs := 1000
    retryBackoffFactor := 2
    connectTimeoutMs := 5000
    overallTimeoutMs := 30000
    heloDomain := "validator.example.com"
    mailFrom := "probe@validator.example.com"
    bannerTimeoutMs := 10000
    ehloTimeoutMs := 5000
    mailTimeoutMs := 5000
    rcptTimeoutMs := 10000
    requireTls := false
    allowTlsDowngrade := true
    maxMxAttempts := 3
    randomizeSamePriority := true }

/-- A 450-style soft result. -/
def softProbeResult : SmtpValidationResult :=
  ⟨.temporarily_unavailable, [.smtp_temporarily_unavailable, .smtp_greylisted], none⟩

/-- Witness for C6: with every attempt soft, the loop makes 3 calls
(limit 2 retries), sleeps 1000 ms then 2000 ms, and surfaces the soft
result with `smtp_soft_fails_exceeded` appended. -/
theorem validateSmtpWithRetry_spec_witness :
    validateSmtpWithRetryModel sampleConfig (fun _ => .ok softProbeResult) =
      (appendSoftFails softProbeResult, 3, [1000, 2000]) := by
  obtain ⟨r, hr, heq⟩ := (validateSmtpWithRetry_spec sampleConfig
    (fun _ => .ok softProbeResult)).2.2.2 (fun k hk => ⟨softProbeResult, rfl, rfl⟩)
  have hrr : r = softProbeResult := by
    simpa using hr.symm
  rw [hrr] at heq
  rw [heq]
  have hrange : List.range sampleConfig.softRetryLimit = [0, 1] := by decide
  rw [hrange]
  norm_num [retryDelay, sampleConfig]

/-! ## The in-memory throttle store (`utils/throttleState.ts`, `InMemoryThrottleStore`)

The store's mutable state — the host map and the global counter — is
passed explicitly.  JS numbers holding counters and timestamps are
`Int`, so that non-negativity of the counters is a real theorem rather
than a consequence of the carrier type.  `penaltyUntil` and
`lastAttemptAt` are optional fields in the source and `Option Int`
here. -/

/-- The `MxState` (throttleState.ts 33-43). -/
structure MxState where
  host : String
  concurrency : Int
  maxConcurrency : Int
  failures : Int
  successCount : Int
  penaltyUntil : Option Int := none
  lastAttemptAt : Option Int := none
  totalAttempts : Int
  totalSuccesses : Int
deriving DecidableEq, Repr

/-- The `ThrottleConfig` (throttleState.ts 88-92). -/
structure ThrottleConfig where
  maxGlobalConcurrency : Int
  maxMxConcurrency : Int
  perDomainMinIntervalMs : Int
deriving DecidableEq, Repr

/-- The mutable fields of `InMemoryThrottleStore`: the per-host map
and the global in-flight counter. -/
structure InMemoryThrottleStore where
  mxStates : String → Option MxState
  globalConcurrency : Int

/-- The `this.mxStates.set(key, st)`. -/
def updateState (f : String → Option MxState) (k : String) (v : MxState) :
    String → Option MxState :=
  fun h => if h = k then some v else f h

/-- A fresh store (also the result of `clearAll`). -/
def InMemoryThrottleStore.empty : InMemoryThrottleStore := ⟨fun _ => none, 0⟩

/-- The `getOrCreateState` (throttleState.ts 377-393): look the
case-normalized host up, creating a conservative initial state
(`maxConcurrency = min(maxMxConcurrency, 2)`) when absent.  Returns the
host state together with the (possibly extended) store. -/
def getOrCreateState (s : InMemoryThrottleStore) (mxHost : String) (maxMxConcurrency : Int) :
    MxState × InMemoryThrottleStore :=
  let normalizedHost := jsToLower mxHost
  match s.mxStates normalizedHost with
  | some st => (st, s)
  | none =>
    let st : MxState :=
      { host := normalizedHost
        concurrency := 0
        maxConcurrency := min maxMxConcurrency 2
        failures := 0
        successCount := 0
        totalAttempts := 0
        totalSuccesses := 0 }
    (st, { s with mxStates := updateState s.mxStates normalizedHost st })

/-- The mutation performed by `acquireSlot` once every gate passes
(throttleState.ts 448-452): increment the host and global counters,
bump `totalAttempts`, stamp `lastAttemptAt`. -/
def applyAcquire (s : InMemoryThrottleStore) (st : MxState) (now : Int) :
    InMemoryThrottleStore :=
  let st' :=
    { st with
      concurrency := st.concurrency + 1
      totalAttempts := st.totalAttempts + 1
      lastAttemptAt := some now }
  ⟨updateState s.mxStates st.host st', s.globalConcurrency + 1⟩

/-- The `releaseSlot` (throttleState.ts 466-481): an unknown host is left
untouched; otherwise both counters are decremented, clamped at 0. -/
def releaseSlot (s : InMemoryThrottleStore) (mxHost : String) : InMemoryThrottleStore :=
  match s.mxStates (jsToLower mxHost) with
  | none => s
  | some st =>
    let st' := { st with concurrency := max 0 (st.concurrency - 1) }
    ⟨updateState s.mxStates (jsToLower mxHost) st', max 0 (s.globalConcurrency - 1)⟩

/-- The per-host state change of `recordSuccess` (throttleState.ts
490-498): bump the success streak and lifetime total, decay the failure
counter, and raise the adaptive ceiling (capped at 5) after a sustained
streak. -/
def recordSuccessState (st : MxState) : MxState :=
  let st1 :=
    { st with
      successCount := st.successCount + 1
      totalSuccesses := st.totalSuccesses + 1
      failures := max 0 (st.failures - 1) }
  if st1.successCount > 10 ∧ st1.maxConcurrency < 5 then
    { st1 with maxConcurrency := min (st1.maxConcurrency + 1) 5 }
  else st1

/-- The `recordSuccess` (throttleState.ts 486-499): unknown hosts are a
no-op. -/
def recordSuccess (s : InMemoryThrottleStore) (mxHost : String) : InMemoryThrottleStore :=
  match s.mxStates (jsToLower mxHost) with
  | none => s
  | some st =>
    { s with mxStates := updateState s.mxStates (jsToLower mxHost) (recordSuccessState st) }

/-- The per-host state change of `recordFailure` (throttleState.ts
508-527): increment the failure counter, reset the success streak, set
the exponential penalty window when the failure is severe, and lower
the adaptive ceiling (floored at 1) after repeated failures.  The
source computes `5000 * Math.pow(2, state.failures)` after the
increment; `failures` is never negative (see the store invariant), so
`Int.toNat` is exact. -/
def recordFailureState (st : MxState) (shouldPenalize : Bool) (now : Int) : MxState :=
  let st1 := { st with failures := st.failures + 1, successCount := 0 }
  let st2 :=
    if shouldPenalize then
      { st1 with penaltyUntil := some (now + min 300000 (5000 * 2 ^ st1.failures.toNat)) }
    else st1
  if st2.failures > 3 ∧ st2.maxConcurrency > 1 then
    { st2 with maxConcurrency := max 1 (st2.maxConcurrency - 1) }
  else st2

/-- The `recordFailure` (throttleState.ts 504-528): unknown hosts are a
no-op; `now` is the `Date.now()` read when the penalty is applied. -/
def recordFailure (s : InMemoryThrottleStore) (mxHost : String) (shouldPenalize : Bool)
    (now : Int) : InMemoryThrottleStore :=
  match s.mxStates (jsToLower mxHost) with
  | none => s
  | some st =>
    { s with mxStates :=
        updateState s.mxStates (jsToLower mxHost) (recordFailureState st shouldPenalize now) }

/-! ## Claim C9: `recordFailure` -/

/-- Looking the host up after `recordFailure` yields the transformed
state. -/
theorem recordFailure_lookup (s : InMemoryThrottleStore) (host : String) (severe : Bool)
    (now : Int) (st : MxState) (hlook : s.mxStates (jsToLower host) = some st) :
    (recordFailure s host severe now).mxStates (jsToLower host) =
      some (recordFailureState st severe now) := by
  rw [recordFailure, hlook]
  simp [updateState]

/-- Claim C9. `recordFailure` increments the failure counter and resets
the success streak; once `failures > 3` (and the ceiling is above its
floor) it lowers the adaptive ceiling by one, bounded below at 1; a
severe failure sets `penaltyUntil = now + min(300000, 5000·2^failures)`.
Consequently a host starting from the initial state (ceiling 2, zero
failures) that accumulates 4 consecutive severe failures ends with
ceiling 1 and a penalty window strictly in the future. -/
theorem recordFailure_spec (s : InMemoryThrottleStore) (host : String) (severe : Bool)
    (now t1 t2 t3 t4 maxMx : Int) (st : MxState) :
    (s.mxStates (jsToLower host) = some st →
      (recordFailure s host severe now).mxStates (jsToLower host) =
        some (recordFailureState st severe now)) ∧
    (recordFailureState st severe now).failures = st.failures + 1 ∧
    (recordFailureState st severe now).successCount = 0 ∧
    (severe = true →
      (recordFailureState st severe now).penaltyUntil =
        some (now + min 300000 (5000 * 2 ^ (st.failures + 1).toNat))) ∧
    (severe = false →
      (recordFailureState st severe now).penaltyUntil = st.penaltyUntil) ∧
    (st.failures + 1 > 3 ∧ st.maxConcurrency > 1 →
      (recordFailureState st severe now).maxConcurrency = max 1 (st.maxConcurrency - 1)) ∧
    (¬ (st.failures + 1 > 3 ∧ st.maxConcurrency > 1) →
      (recordFailureState st severe now).maxConcurrency = st.maxConcurrency) ∧
    (2 ≤ maxMx →
      ∃ stf,
        (recordFailure (recordFailure (recordFailure (recordFailure
            (getOrCreateState InMemoryThrottleStore.empty host maxMx).2
            host true t1) host true t2) host true t3) host true t4).mxStates
          (jsToLower host) = some stf ∧
        stf.maxConcurrency = 1 ∧
        stf.failures = 4 ∧
        stf.penaltyUntil = some (t4 + 80000) ∧
        (∀ p, stf.penaltyUntil = some p → t4 < p)) := by
  have hbody : ∀ severe', (recordFailureState st severe' now).failures = st.failures + 1 ∧
      (recordFailureState st severe' now).successCount = 0 := by
    intro severe'
    cases severe' <;> by_cases hdec : st.failures + 1 > 3 ∧ st.maxConcurrency > 1 <;>
      simp [recordFailureState, hdec]
  refine ⟨?_, (hbody severe).1, (hbody severe).2, ?_, ?_, ?_, ?_, ?_⟩
  · exact recordFailure_lookup s host severe now st
  · intro hsev
    subst hsev
    by_cases hdec : st.failures + 1 > 3 ∧ st.maxConcurrency > 1 <;>
      simp [recordFailureState, hdec]
  · intro hsev
    subst hsev
    by_cases hdec : st.failures + 1 > 3 ∧ st.maxConcurrency > 1 <;>
      simp [recordFailureState, hdec]
  · intro hdec
    cases severe <;> simp [recordFailureState, hdec]
  · intro hdec
    cases severe <;> simp [recordFailureState, hdec]
  · intro hmax
    have hmin : min maxMx 2 = 2 := by omega
    have h0 : (getOrCreateState InMemoryThrottleStore.empty host maxMx).2.mxStates
        (jsToLower host) =
        some ⟨jsToLower host, 0, 2, 0, 0, none, none, 0, 0⟩ := by
      simp [getOrCreateState, InMemoryThrottleStore.empty, updateState, hmin]
    have h1 := recordFailure_lookup _ host true t1 _ h0
    have h2 := recordFailure_lookup _ host true t2 _ h1
    have h3 := recordFailure_lookup _ host true t3 _ h2
    have h4 := recordFailure_lookup _ host true t4 _ h3
    have hpen : (recordFailureState (recordFailureState (recordFailureState
        (recordFailureState (⟨jsToLower host, 0, 2, 0, 0, none, none, 0, 0⟩ : MxState)
        true t1) true t2) true t3) true t4).penaltyUntil = some (t4 + 80000) := by
      norm_num [recordFailureState]
      decide
    refine ⟨_, h4, ?_, ?_, hpen, ?_⟩
    · norm_num [recordFailureState]
    · norm_num [recordFailureState]
    · intro p hp
      rw [hpen] at hp
      simp at hp
      omega

/-- Witness for C9: host `MX1.Example.COM` with configured ceiling 2,
four severe failures at times 1000..4000. -/
theorem recordFailure_spec_witness :
    ∃ stf,
      (recordFailure (recordFailure (recordFailure (recordFailure
          (getOrCreateState InMemoryThrottleStore.empty "MX1.Example.COM" 2).2
          "MX1.Example.COM" true 1000) "MX1.Example.COM" true 2000)
          "MX1.Example.COM" true 3000) "MX1.Example.COM" true 4000).mxStates
        (jsToLower "MX1.Example.COM") = some stf ∧
      stf.maxConcurrency = 1 ∧
      stf.failures = 4 ∧
      stf.penaltyUntil = some (4000 + 80000) ∧
      (∀ p, stf.penaltyUntil = some p → (4000 : Int) < p) := by
  have h := recordFailure_spec InMemoryThrottleStore.empty "MX1.Example.COM" true 0
    1000 2000 3000 4000 2 ⟨"", 0, 1, 0, 0, none, none, 0, 0⟩
  exact h.2.2.2.2.2.2.2 (by norm_num)

/-! ## Claim C5: counters stay non-negative, `maxConcurrency ∈ [1, 5]`

Every mutation of the in-memory store goes through `acquireSlot`
(state creation plus, on success, the increments), `releaseSlot`,
`recordSuccess`, `recordFailure` and `clearAll`.  A trace of such
operations is a list of `ThrottleOp`s folded over the store.  The
`acquire` op applies the success-path increments without re-checking
the gates, which only widens the set of reachable states — the
invariant holds on the wider set, hence on every reachable one. -/

/-- One throttle-store operation. -/
inductive ThrottleOp
  | create (host : String) (maxMx : Int)
  | acquire (host : String) (maxMx : Int) (now : Int)
  | release (host : String)
  | success (host : String)
  | failure (host : String) (severe : Bool) (now : Int)
  | clear
deriving DecidableEq, Repr

/-- Apply one operation to the store.  `create` is the state-creating
prefix of `acquireSlot` (also performed by `getState`, with ceiling 2);
`acquire` is a successful `acquireSlot`; `clear` is `clearAll`. -/
def applyOp (s : InMemoryThrottleStore) : ThrottleOp → InMemoryThrottleStore
  | .create host maxMx => (getOrCreateState s host maxMx).2
  | .acquire host maxMx now =>
    let p := getOrCreateState s host maxMx
    applyAcquire p.2 p.1 now
  | .release host => releaseSlot s host
  | .success host => recordSuccess s host
  | .failure host severe now => recordFailure s host severe now
  | .clear => InMemoryThrottleStore.empty

/-- The well-formedness the claim assumes: configured per-host ceilings
are at least 1.  (`getState` uses the constant 2.) -/
def opWF : ThrottleOp → Bool
  | .create _ maxMx => 1 ≤ maxMx
  | .acquire _ maxMx _ => 1 ≤ maxMx
  | _ => true

/-- The per-host invariant: counters non-negative and the adaptive
ceiling within `[1, 5]` (5 is the hard ceiling of `recordSuccess`). -/
def MxInv (st : MxState) : Prop :=
  0 ≤ st.concurrency ∧ 1 ≤ st.maxConcurrency ∧ st.maxConcurrency ≤ 5 ∧
  0 ≤ st.failures ∧ 0 ≤ st.successCount

/-- The store invariant: the global counter is non-negative and every
known host satisfies `MxInv`. -/
def StoreInv (s : InMemoryThrottleStore) : Prop :=
  0 ≤ s.globalConcurrency ∧ ∀ h st, s.mxStates h = some st → MxInv st

theorem getOrCreateState_inv (s : InMemoryThrottleStore) (host : String) (maxMx : Int)
    (hs : StoreInv s) (hmax : 1 ≤ maxMx) :
    MxInv (getOrCreateState s host maxMx).1 ∧ StoreInv (getOrCreateState s host maxMx).2 := by
  unfold getOrCreateState
  dsimp only
  cases hl : s.mxStates (jsToLower host) with
  | some st =>
    dsimp only
    exact ⟨hs.2 _ _ hl, hs⟩
  | none =>
    dsimp only
    constructor
    · refine ⟨le_rfl, ?_, ?_, le_rfl, le_rfl⟩ <;> simp only [min_def] <;> split <;> omega
    · refine ⟨hs.1, fun h stt hlk => ?_⟩
      simp only [updateState] at hlk
      by_cases hh : h = jsToLower host
      · rw [if_pos hh] at hlk
        cases hlk
        refine ⟨le_rfl, ?_, ?_, le_rfl, le_rfl⟩ <;> simp only [min_def] <;> split <;> omega
      · rw [if_neg hh] at hlk
        exact hs.2 _ _ hlk

theorem applyAcquire_inv (s : InMemoryThrottleStore) (st : MxState) (now : Int)
    (hs : StoreInv s) (hst : MxInv st) : StoreInv (applyAcquire s st now) := by
  unfold applyAcquire
  refine ⟨by have := hs.1; dsimp only; omega, fun h stt hlk => ?_⟩
  simp only [updateState] at hlk
  by_cases hh : h = st.host
  · rw [if_pos hh] at hlk
    cases hlk
    exact ⟨by have := hst.1; dsimp only; omega, hst.2.1, hst.2.2.1, hst.2.2.2⟩
  · rw [if_neg hh] at hlk
    exact hs.2 _ _ hlk

theorem releaseSlot_inv (s : InMemoryThrottleStore) (host : String) (hs : StoreInv s) :
    StoreInv (releaseSlot s host) := by
  unfold releaseSlot
  cases hl : s.mxStates (jsToLower host) with
  | none => exact hs
  | some st =>
    dsimp only
    refine ⟨by simp only [max_def]; split <;> omega, fun h stt hlk => ?_⟩
    simp only [updateState] at hlk
    by_cases hh : h = jsToLower host
    · rw [if_pos hh] at hlk
      cases hlk
      have hst := hs.2 _ _ hl
      exact ⟨by simp only [max_def]; split <;> omega, hst.2.1, hst.2.2.1, hst.2.2.2⟩
    · rw [if_neg hh] at hlk
      exact hs.2 _ _ hlk

theorem recordSuccessState_inv (st : MxState) (hst : MxInv st) :
    MxInv (recordSuccessState st) := by
  obtain ⟨h1, h2, h3, h4, h5⟩ := hst
  unfold recordSuccessState MxInv
  dsimp only
  split <;> refine ⟨?_, ?_, ?_, ?_, ?_⟩ <;> dsimp only <;>
    (try simp only [min_def, max_def]) <;> (try split) <;> omega

theorem recordFailureState_inv (st : MxState) (severe : Bool) (now : Int) (hst : MxInv st) :
    MxInv (recordFailureState st severe now) := by
  obtain ⟨h1, h2, h3, h4, h5⟩ := hst
  unfold recordFailureState MxInv
  dsimp only
  cases severe <;> split_ifs <;> refine ⟨?_, ?_, ?_, ?_, ?_⟩ <;> dsimp only <;>
    (try simp only [min_def, max_def]) <;> (try split) <;> omega

theorem recordSuccess_inv (s : InMemoryThrottleStore) (host : String) (hs : StoreInv s) :
    StoreInv (recordSuccess s host) := by
  unfold recordSuccess
  cases hl : s.mxStates (jsToLower host) with
  | none => exact hs
  | some st =>
    dsimp only
    refine ⟨hs.1, fun h stt hlk => ?_⟩
    simp only [updateState] at hlk
    by_cases hh : h = jsToLower host
    · rw [if_pos hh] at hlk
      cases hlk
      exact recordSuccessState_inv st (hs.2 _ _ hl)
    · rw [if_neg hh] at hlk
      exact hs.2 _ _ hlk

theorem recordFailure_inv (s : InMemoryThrottleStore) (host : String) (severe : Bool)
    (now : Int) (hs : StoreInv s) : StoreInv (recordFailure s host severe now) := by
  unfold recordFailure
  cases hl : s.mxStates (jsToLower host) with
  | none => exact hs
  | some st =>
    dsimp only
    refine ⟨hs.1, fun h stt hlk => ?_⟩
    simp only [updateState] at hlk
    by_cases hh : h = jsToLower host
    · rw [if_pos hh] at hlk
      cases hlk
      exact recordFailureState_inv st severe now (hs.2 _ _ hl)
    · rw [if_neg hh] at hlk
      exact hs.2 _ _ hlk

theorem applyOp_inv (s : InMemoryThrottleStore) (op : ThrottleOp)
    (hs : StoreInv s) (hop : opWF op = true) : StoreInv (applyOp s op) := by
  cases op with
  | create host maxMx =>
    exact (getOrCreateState_inv s host maxMx hs (by simpa [opWF] using hop)).2
  | acquire host maxMx now =>
    have h := getOrCreateState_inv s host maxMx hs (by simpa [opWF] using hop)
    exact applyAcquire_inv _ _ now h.2 h.1
  | release host => exact releaseSlot_inv s host hs
  | success host => exact recordSuccess_inv s host hs
  | failure host severe now => exact recordFailure_inv s host severe now hs
  | clear => exact ⟨le_rfl, fun h st hlk => nomatch hlk⟩

theorem foldl_applyOp_inv (ops : List ThrottleOp) :
    ∀ s, StoreInv s → (∀ op ∈ ops, opWF op = true) →
      StoreInv (ops.foldl applyOp s) := by
  induction ops with
  | nil => intro s hs _; exact hs
  | cons op rest ih =>
    intro s hs hwf
    exact ih (applyOp s op) (applyOp_inv s op hs (hwf op (List.mem_cons_self _ _)))
      (fun op' hop' => hwf op' (List.mem_cons_of_mem _ hop'))

/-- Claim C5. Over every sequence of throttle operations starting from the
fresh store (given configured per-host ceilings ≥ 1), the per-host and
global concurrency counters are never negative and every host's
adaptive `maxConcurrency` stays within `[1, 5]`; moreover `releaseSlot`
on an unknown host leaves the store untouched, and on a known host it
clamps both counters at 0. -/
theorem throttleStore_invariant_spec (ops : List ThrottleOp) (s : InMemoryThrottleStore)
    (host : String) :
    ((∀ op ∈ ops, opWF op = true) →
      StoreInv (ops.foldl applyOp InMemoryThrottleStore.empty)) ∧
    (s.mxStates (jsToLower host) = none → releaseSlot s host = s) ∧
    (StoreInv s → StoreInv (releaseSlot s host)) := by
  refine ⟨?_, ?_, fun hs => releaseSlot_inv s host hs⟩
  · intro hwf
    exact foldl_applyOp_inv ops InMemoryThrottleStore.empty
      ⟨le_rfl, fun h st hlk => nomatch hlk⟩ hwf
  · intro hnone
    unfold releaseSlot
    rw [hnone]

/-- Witness for C5: a concrete trace that acquires once, releases
twice (the second release hits a drained host), records a severe
failure, and records a success against a host that was never created. -/
theorem throttleStore_invariant_spec_witness :
    (∀ op ∈ [ThrottleOp.create "A.com" 3, ThrottleOp.acquire "A.com" 3 100,
        ThrottleOp.release "A.com", ThrottleOp.release "A.com",
        ThrottleOp.failure "A.com" true 200, ThrottleOp.success "b.com"],
      opWF op = true) ∧
    StoreInv ([ThrottleOp.create "A.com" 3, ThrottleOp.acquire "A.com" 3 100,
        ThrottleOp.release "A.com", ThrottleOp.release "A.com",
        ThrottleOp.failure "A.com" true 200, ThrottleOp.success "b.com"].foldl applyOp
      InMemoryThrottleStore.empty) ∧
    InMemoryThrottleStore.empty.mxStates (jsToLower "never-acquired.com") = none ∧
    releaseSlot InMemoryThrottleStore.empty "never-acquired.com" =
      InMemoryThrottleStore.empty := by
  have h := throttleStore_invariant_spec
    [ThrottleOp.create "A.com" 3, ThrottleOp.acquire "A.com" 3 100,
      ThrottleOp.release "A.com", ThrottleOp.release "A.com",
      ThrottleOp.failure "A.com" true 200, ThrottleOp.success "b.com"]
    InMemoryThrottleStore.empty "never-acquired.com"
  exact ⟨by decide, h.1 (by decide), rfl, h.2.1 rfl⟩

/-! ## Claim C4: `InMemoryThrottleStore.acquireSlot` (throttleState.ts 399-461)

The waiting loop rereads `Date.now()` each iteration; in the model a
sleep of `w` ms advances the clock by exactly `w`, and no other task
mutates the store while this caller waits — the gates that resolve
while blocked (penalty expiry, minimum interval) resolve through the
passage of time.  The loop is fuel-indexed; `none` means the fuel ran
out with the caller still waiting. -/

/-- The penalty gate (lines 416-421): while the host is penalized,
sleep `min(1000, penaltyUntil - now)`. -/
def penaltyWait (st : MxState) (now : Int) : Option Int :=
  match st.penaltyUntil with
  | some p => if now < p then some (min 1000 (p - now)) else none
  | none => none

/-- The per-domain minimum-interval gate (lines 424-432): if the last
attempt was less than `perDomainMinIntervalMs` ago, sleep the rest of
the interval. -/
def intervalWait (cfg : ThrottleConfig) (st : MxState) (now : Int) : Option Int :=
  match st.lastAttemptAt with
  | some l =>
    if now - l < cfg.perDomainMinIntervalMs then
      some (cfg.perDomainMinIntervalMs - (now - l))
    else none
  | none => none

/-- What one iteration of the wait loop decides. -/
inductive AcquireStep
  | timeoutErr
  | blocked (sleepMs : Int)
  | acquired
deriving DecidableEq, Repr

/-- One loop iteration (lines 407-459): the overall-wait timeout check,
then the four gates in source order, with 500 ms naps on the two
concurrency gates. -/
def acquireIter (cfg : ThrottleConfig) (st : MxState) (globalConcurrency : Int)
    (startTime now : Int) : AcquireStep :=
  if now - startTime > 60000 then .timeoutErr
  else
    match penaltyWait st now with
    | some w => .blocked w
    | none =>
      match intervalWait cfg st now with
      | some w => .blocked w
      | none =>
        if globalConcurrency ≥ cfg.maxGlobalConcurrency then .blocked 500
        else if st.concurrency ≥ st.maxConcurrency then .blocked 500
        else .acquired

/-- The wait loop, fuel-indexed.  On success: the mutated store and the
acquisition instant; on timeout: the instant the error was raised. -/
def acquireLoopGo (cfg : ThrottleConfig) (st : MxState) (s : InMemoryThrottleStore)
    (startTime : Int) : Nat → Int → Option (Except Int (InMemoryThrottleStore × Int))
  | 0, _ => none
  | fuel + 1, now =>
    match acquireIter cfg st s.globalConcurrency startTime now with
    | .timeoutErr => some (.error now)
    | .acquired => some (.ok (applyAcquire s st now, now))
    | .blocked w => acquireLoopGo cfg st s startTime fuel (now + w)

/-- The `acquireSlot` (lines 399-461): create-or-get the host state, then
loop, with the first `Date.now()` read equal to `startTime`. -/
def acquireSlotModel (cfg : ThrottleConfig) (mxHost : String) (s : InMemoryThrottleStore)
    (startTime : Int) (fuel : Nat) : Option (Except Int (InMemoryThrottleStore × Int)) :=
  let p := getOrCreateState s mxHost cfg.maxMxConcurrency
  acquireLoopGo cfg p.1 p.2 startTime fuel startTime

/-- Every sleep the penalty gate requests is strictly positive. -/
theorem penaltyWait_pos (st : MxState) (now w : Int) (h : penaltyWait st now = some w) :
    0 < w := by
  unfold penaltyWait at h
  cases hp : st.penaltyUntil with
  | none => rw [hp] at h; dsimp only at h; cases h
  | some p =>
    rw [hp] at h
    dsimp only at h
    by_cases hlt : now < p
    · rw [if_pos hlt] at h
      cases h
      simp only [min_def]
      split <;> omega
    · rw [if_neg hlt] at h
      cases h

/-- Every sleep the interval gate requests is strictly positive. -/
theorem intervalWait_pos (cfg : ThrottleConfig) (st : MxState) (now w : Int)
    (h : intervalWait cfg st now = some w) : 0 < w := by
  unfold intervalWait at h
  cases hl : st.lastAttemptAt with
  | none => rw [hl] at h; dsimp only at h; cases h
  | some l =>
    rw [hl] at h
    dsimp only at h
    by_cases hlt : now - l < cfg.perDomainMinIntervalMs
    · rw [if_pos hlt] at h
      cases h
      omega
    · rw [if_neg hlt] at h
      cases h

/-- A blocked iteration always sleeps a strictly positive duration —
the loop suspends, it does not busy-spin. -/
theorem acquireIter_blocked_pos (cfg : ThrottleConfig) (st : MxState) (g t0 t w : Int)
    (h : acquireIter cfg st g t0 t = .blocked w) : 0 < w := by
  unfold acquireIter at h
  by_cases h1 : t - t0 > 60000
  · rw [if_pos h1] at h; cases h
  · rw [if_neg h1] at h
    cases hp : penaltyWait st t with
    | some wp =>
      rw [hp] at h
      dsimp only at h
      cases h
      exact penaltyWait_pos st t _ hp
    | none =>
      rw [hp] at h
      dsimp only at h
      cases hi : intervalWait cfg st t with
      | some wi =>
        rw [hi] at h
        dsimp only at h
        cases h
        exact intervalWait_pos cfg st t _ hi
      | none =>
        rw [hi] at h
        dsimp only at h
        by_cases h2 : g ≥ cfg.maxGlobalConcurrency
        · rw [if_pos h2] at h; cases h; omega
        · rw [if_neg h2] at h
          by_cases h3 : st.concurrency ≥ st.maxConcurrency
          · rw [if_pos h3] at h; cases h; omega
          · rw [if_neg h3] at h; cases h

/-- An iteration acquires only when, at that instant, all four gates
pass and the overall wait has not timed out. -/
theorem acquireIter_acquired (cfg : ThrottleConfig) (st : MxState) (g t0 t : Int)
    (h : acquireIter cfg st g t0 t = .acquired) :
    t - t0 ≤ 60000 ∧ penaltyWait st t = none ∧ intervalWait cfg st t = none ∧
    g < cfg.maxGlobalConcurrency ∧ st.concurrency < st.maxConcurrency := by
  unfold acquireIter at h
  by_cases h1 : t - t0 > 60000
  · rw [if_pos h1] at h; cases h
  · rw [if_neg h1] at h
    cases hp : penaltyWait st t with
    | some wp => rw [hp] at h; dsimp only at h; cases h
    | none =>
      rw [hp] at h
      dsimp only at h
      cases hi : intervalWait cfg st t with
      | some wi => rw [hi] at h; dsimp only at h; cases h
      | none =>
        rw [hi] at h
        dsimp only at h
        by_cases h2 : g ≥ cfg.maxGlobalConcurrency
        · rw [if_pos h2] at h; cases h
        · rw [if_neg h2] at h
          by_cases h3 : st.concurrency ≥ st.maxConcurrency
          · rw [if_pos h3] at h; cases h
          · rw [if_neg h3] at h
            exact ⟨by omega, rfl, rfl, by omega, by omega⟩

/-- An iteration raises the timeout error only past the 60000 ms
overall wait budget. -/
theorem acquireIter_timeout (cfg : ThrottleConfig) (st : MxState) (g t0 t : Int)
    (h : acquireIter cfg st g t0 t = .timeoutErr) : t - t0 > 60000 := by
  unfold acquireIter at h
  by_cases h1 : t - t0 > 60000
  · exact h1
  · rw [if_neg h1] at h
    cases hp : penaltyWait st t with
    | some wp => rw [hp] at h; dsimp only at h; cases h
    | none =>
      rw [hp] at h
      dsimp only at h
      cases hi : intervalWait cfg st t with
      | some wi => rw [hi] at h; dsimp only at h; cases h
      | none =>
        rw [hi] at h
        dsimp only at h
        by_cases h2 : g ≥ cfg.maxGlobalConcurrency
        · rw [if_pos h2] at h; cases h
        · rw [if_neg h2] at h
          by_cases h3 : st.concurrency ≥ st.maxConcurrency
          · rw [if_pos h3] at h; cases h
          · rw [if_neg h3] at h; cases h

/-- If the loop returns success, the final iteration acquired: the
store mutation is the acquire increments at the returned instant. -/
theorem acquireLoopGo_ok (cfg : ThrottleConfig) (st : MxState) (s : InMemoryThrottleStore)
    (t0 : Int) : ∀ (fuel : Nat) (now : Int) (s' : InMemoryThrottleStore) (t : Int),
    acquireLoopGo cfg st s t0 fuel now = some (.ok (s', t)) →
      acquireIter cfg st s.globalConcurrency t0 t = .acquired ∧ s' = applyAcquire s st t := by
  intro fuel
  induction fuel with
  | zero => intro now s' t h; cases h
  | succ f ih =>
    intro now s' t h
    rw [acquireLoopGo] at h
    cases hit : acquireIter cfg st s.globalConcurrency t0 now with
    | timeoutErr => rw [hit] at h; dsimp only at h; cases h
    | acquired =>
      rw [hit] at h
      dsimp only at h
      cases h
      exact ⟨hit, rfl⟩
    | blocked w =>
      rw [hit] at h
      dsimp only at h
      exact ih (now + w) s' t h

/-- If the loop raises the timeout error, the raise happened strictly
past the 60000 ms budget. -/
theorem acquireLoopGo_err (cfg : ThrottleConfig) (st : MxState) (s : InMemoryThrottleStore)
    (t0 : Int) : ∀ (fuel : Nat) (now t : Int),
    acquireLoopGo cfg st s t0 fuel now = some (.error t) → t - t0 > 60000 := by
  intro fuel
  induction fuel with
  | zero => intro now t h; cases h
  | succ f ih =>
    intro now t h
    rw [acquireLoopGo] at h
    cases hit : acquireIter cfg st s.globalConcurrency t0 now with
    | timeoutErr =>
      rw [hit] at h
      dsimp only at h
      cases h
      exact acquireIter_timeout cfg st s.globalConcurrency t0 now hit
    | acquired => rw [hit] at h; dsimp only at h; cases h
    | blocked w =>
      rw [hit] at h
      dsimp only at h
      exact ih (now + w) t h

/-- Claim C4. `acquireSlot` returns normally only when, at the moment of
acquisition, all four gates hold — no active penalty, at least
`perDomainMinIntervalMs` since the host's last attempt, global
in-flight strictly below the global ceiling, host in-flight strictly
below the host's adaptive ceiling — and then performs exactly the
acquire increments; while blocked it sleeps strictly positive
durations rather than busy-spinning; and it raises an error only once
the total wait exceeds 60000 ms. -/
theorem acquireSlot_spec (cfg : ThrottleConfig) (mxHost : String)
    (s s0 : InMemoryThrottleStore) (st0 : MxState) (startTime : Int) (fuel : Nat)
    (hget : getOrCreateState s mxHost cfg.maxMxConcurrency = (st0, s0)) :
    (∀ s' t, acquireSlotModel cfg mxHost s startTime fuel = some (.ok (s', t)) →
      penaltyWait st0 t = none ∧
      intervalWait cfg st0 t = none ∧
      s0.globalConcurrency < cfg.maxGlobalConcurrency ∧
      st0.concurrency < st0.maxConcurrency ∧
      s' = applyAcquire s0 st0 t ∧
      t - startTime ≤ 60000) ∧
    (∀ t, acquireSlotModel cfg mxHost s startTime fuel = some (.error t) →
      t - startTime > 60000) ∧
    (∀ st g t0 t w, acquireIter cfg st g t0 t = .blocked w → 0 < w) := by
  refine ⟨?_, ?_, fun st g t0 t w h => acquireIter_blocked_pos cfg st g t0 t w h⟩
  · intro s' t h
    rw [acquireSlotModel, hget] at h
    obtain ⟨hit, hs'⟩ := acquireLoopGo_ok cfg st0 s0 startTime fuel startTime s' t h
    obtain ⟨hto, hp, hi, hg, hc⟩ := acquireIter_acquired cfg st0 s0.globalConcurrency
      startTime t hit
    exact ⟨hp, hi, hg, hc, hs', hto⟩
  · intro t h
    rw [acquireSlotModel, hget] at h
    exact acquireLoopGo_err cfg st0 s0 startTime fuel startTime t h

/-- Witness for C4: a fresh host on an idle store acquires immediately
at `startTime = 1000` under config (global 10, per-host 3, interval
2000 ms). -/
theorem acquireSlot_spec_witness :
    (getOrCreateState InMemoryThrottleStore.empty "mx.test" (3 : Int)).2.globalConcurrency <
      (10 : Int) ∧
    (getOrCreateState InMemoryThrottleStore.empty "mx.test" (3 : Int)).1.concurrency <
      (getOrCreateState InMemoryThrottleStore.empty "mx.test" (3 : Int)).1.maxConcurrency ∧
    penaltyWait (getOrCreateState InMemoryThrottleStore.empty "mx.test" (3 : Int)).1 1000 =
      none := by
  have h := acquireSlot_spec ⟨10, 3, 2000⟩ "mx.test" InMemoryThrottleStore.empty
    (getOrCreateState InMemoryThrottleStore.empty "mx.test" 3).2
    (getOrCreateState InMemoryThrottleStore.empty "mx.test" 3).1 1000 5 rfl
  have hc := h.1 (applyAcquire (getOrCreateState InMemoryThrottleStore.empty "mx.test" 3).2
    (getOrCreateState InMemoryThrottleStore.empty "mx.test" 3).1 1000) 1000 rfl
  exact ⟨hc.2.2.1, hc.2.2.2.1, hc.1⟩

/-! ## Claim C3: the distributed (Redis) throttle slot acquisition

`acquireThrottleSlot` (utils/cache.ts / utils/redis.ts 667-789)
submits one Lua script in a single `EVAL` round trip; Redis executes a
script atomically, so an interleaved execution of many distributed
callers is a sequence of whole script runs over the shared keys.  The
four keys of one host plus the global counter are modelled as one
record; the Lua `tonumber(redis.call('GET', k)) or 0` defaults are the
`Int` default 0.  Key TTLs (which only matter across idle periods
longer than the throttle TTL) are not modelled; the `ttl` argument is
carried for fidelity. -/

/-- The Redis keys the script touches, for every host:
`throttle:global:concurrency`, `throttle:{host}:concurrency`,
`throttle:{host}:penalty`, `throttle:{host}:lastAttempt`. -/
structure RedisThrottleState where
  globalConcurrency : Int
  mxConcurrency : String → Int
  penaltyUntil : String → Int
  lastAttempt : String → Int

/-- All keys absent (every `GET` yields nil, i.e. 0). -/
def RedisThrottleState.initial : RedisThrottleState := ⟨0, fun _ => 0, fun _ => 0, fun _ => 0⟩

/-- The `SET`/`INCR` on a per-host key. -/
def updateInt (f : String → Int) (k : String) (v : Int) : String → Int :=
  fun h => if h = k then v else f h

/-- The Lua script (utils/redis.ts 689-746), as one atomic step: checks
penalty, per-domain interval, global ceiling and host ceiling in that
order, and performs both `INCR`s plus the `lastAttempt` stamp only when
every gate passes.  Returns the Lua tuple
`{acquired, reasonCode, globalCount, mxCount, waitMs}` (reason codes:
0 success, 1 penalty, 2 interval, 3 global limit, 4 mx limit) together
with the post state. -/
def acquireThrottleSlotScript (mxHost : String) (maxGlobal maxMx ttl now minInterval : Int)
    (s : RedisThrottleState) : (Int × Int × Int × Int × Int) × RedisThrottleState :=
  let penaltyUntil := s.penaltyUntil mxHost
  if now < penaltyUntil then ((0, 1, 0, 0, penaltyUntil - now), s)
  else
    let lastAttempt := s.lastAttempt mxHost
    if lastAttempt > 0 ∧ now - lastAttempt < minInterval then
      ((0, 2, 0, 0, minInterval - (now - lastAttempt)), s)
    else
      let globalCount := s.globalConcurrency
      let mxCount := s.mxConcurrency mxHost
      if globalCount ≥ maxGlobal then ((0, 3, globalCount, mxCount, 500), s)
      else if mxCount ≥ maxMx then ((0, 4, globalCount, mxCount, 500), s)
      else
        ((1, 0, globalCount + 1, mxCount + 1, 0),
          ⟨globalCount + 1, updateInt s.mxConcurrency mxHost (mxCount + 1),
            s.penaltyUntil, updateInt s.lastAttempt mxHost now⟩)

/-- The TS result record of `acquireThrottleSlot`. -/
structure AcquireResult where
  acquired : Bool
  reason : String
  globalConcurrency : Int
  mxConcurrency : Int
  waitMs : Option Int
deriving DecidableEq, Repr

/-- The `reasonMap` (utils/redis.ts 770-776). -/
def reasonName (reasonCode : Int) : String :=
  if reasonCode = 0 then "success"
  else if reasonCode = 1 then "penalty_active"
  else if reasonCode = 2 then "interval_not_met"
  else if reasonCode = 3 then "global_limit_reached"
  else if reasonCode = 4 then "mx_limit_reached"
  else "unknown"

/-- The TS wrapper `acquireThrottleSlot` (utils/redis.ts 748-784):
destructure the Lua tuple, map the reason code, surface `waitMs` only
when positive. -/
def acquireThrottleSlot (mxHost : String) (maxGlobal maxMx ttl now minInterval : Int)
    (s : RedisThrottleState) : AcquireResult × RedisThrottleState :=
  let r := acquireThrottleSlotScript mxHost maxGlobal maxMx ttl now minInterval s
  (⟨r.1.1 = 1, reasonName r.1.2.1, r.1.2.2.1, r.1.2.2.2.1,
    if r.1.2.2.2.2 > 0 then some r.1.2.2.2.2 else none⟩, r.2)

/-- The four gating conditions of the distributed acquisition, on the
pre-state. -/
def redisGatesPass (mxHost : String) (maxGlobal maxMx now minInterval : Int)
    (s : RedisThrottleState) : Prop :=
  s.penaltyUntil mxHost ≤ now ∧
  (s.lastAttempt mxHost ≤ 0 ∨ minInterval ≤ now - s.lastAttempt mxHost) ∧
  s.globalConcurrency < maxGlobal ∧
  s.mxConcurrency mxHost < maxMx

/-- A sequence of atomic script invocations against the same host with
the given timestamps; returns the final state and the timestamps of the
successful acquisitions. -/
def runScriptCalls (mxHost : String) (maxGlobal maxMx ttl minInterval : Int) :
    List Int → RedisThrottleState → RedisThrottleState × List Int
  | [], s => (s, [])
  | t :: ts, s =>
    let r := acquireThrottleSlotScript mxHost maxGlobal maxMx ttl t minInterval s
    let rest := runScriptCalls mxHost maxGlobal maxMx ttl minInterval ts r.2
    (rest.1, (if r.1.1 = 1 then [t] else []) ++ rest.2)

/-- The script acquires exactly when all four gates pass on the
pre-state. -/
theorem script_acquired_iff (mxHost : String) (maxGlobal maxMx ttl now minInterval : Int)
    (s : RedisThrottleState) :
    (acquireThrottleSlotScript mxHost maxGlobal maxMx ttl now minInterval s).1.1 = 1 ↔
      redisGatesPass mxHost maxGlobal maxMx now minInterval s := by
  unfold acquireThrottleSlotScript redisGatesPass
  dsimp only
  split_ifs with h1 h2 h3 h4 <;> dsimp only <;> constructor
  · intro h; omega
  · rintro ⟨g1, g2, g3, g4⟩; omega
  · intro h; omega
  · rintro ⟨g1, g2 | g2, g3, g4⟩ <;> omega
  · intro h; omega
  · rintro ⟨g1, g2, g3, g4⟩; omega
  · intro h; omega
  · rintro ⟨g1, g2, g3, g4⟩; omega
  · intro h
    refine ⟨by omega, by omega, by omega, by omega⟩
  · intro h; rfl

/-- On success the script performs, in the same atomic step, both
counter increments and the `lastAttempt` stamp. -/
theorem script_success_post (mxHost : String) (maxGlobal maxMx ttl now minInterval : Int)
    (s : RedisThrottleState) (hg : redisGatesPass mxHost maxGlobal maxMx now minInterval s) :
    acquireThrottleSlotScript mxHost maxGlobal maxMx ttl now minInterval s =
      ((1, 0, s.globalConcurrency + 1, s.mxConcurrency mxHost + 1, 0),
        ⟨s.globalConcurrency + 1, updateInt s.mxConcurrency mxHost (s.mxConcurrency mxHost + 1),
          s.penaltyUntil, updateInt s.lastAttempt mxHost now⟩) := by
  obtain ⟨g1, g2, g3, g4⟩ := hg
  unfold acquireThrottleSlotScript
  dsimp only
  rw [if_neg (by omega), if_neg (by rcases g2 with g2 | g2 <;> omega),
    if_neg (by omega), if_neg (by omega)]

/-- On rejection the script leaves the store untouched. -/
theorem script_reject_post (mxHost : String) (maxGlobal maxMx ttl now minInterval : Int)
    (s : RedisThrottleState)
    (h : (acquireThrottleSlotScript mxHost maxGlobal maxMx ttl now minInterval s).1.1 ≠ 1) :
    (acquireThrottleSlotScript mxHost maxGlobal maxMx ttl now minInterval s).2 = s := by
  unfold acquireThrottleSlotScript at h ⊢
  dsimp only at h ⊢
  split_ifs at h ⊢ <;> first | rfl | (exact absurd rfl h)

/-- Along any sequence of atomic script calls, the counters never
exceed the ceilings: two concurrent callers can never both observe
"clear to proceed" and both acquire past a limit, because the gate
check and the increment are one step. -/
theorem runScriptCalls_counters (mxHost : String) (maxGlobal maxMx ttl minInterval : Int) :
    ∀ (ts : List Int) (s : RedisThrottleState),
      s.globalConcurrency ≤ maxGlobal → s.mxConcurrency mxHost ≤ maxMx →
      (runScriptCalls mxHost maxGlobal maxMx ttl minInterval ts s).1.globalConcurrency ≤
        maxGlobal ∧
      (runScriptCalls mxHost maxGlobal maxMx ttl minInterval ts s).1.mxConcurrency mxHost ≤
        maxMx := by
  intro ts
  induction ts with
  | nil => intro s h1 h2; exact ⟨h1, h2⟩
  | cons t ts ih =>
    intro s h1 h2
    rw [runScriptCalls]
    dsimp only
    by_cases hs : (acquireThrottleSlotScript mxHost maxGlobal maxMx ttl t minInterval s).1.1 = 1
    · have hg := (script_acquired_iff mxHost maxGlobal maxMx ttl t minInterval s).1 hs
      have hpost := script_success_post mxHost maxGlobal maxMx ttl t minInterval s hg
      rw [hpost]
      refine ih _ ?_ ?_
      · dsimp only
        have := hg.2.2.1
        omega
      · dsimp only [updateInt]
        rw [if_pos rfl]
        have := hg.2.2.2
        omega
    · rw [script_reject_post mxHost maxGlobal maxMx ttl t minInterval s hs]
      exact ih s h1 h2

/-- Along any sequence of atomic script calls with non-decreasing
positive timestamps, two successful acquisitions for the same host are
at least `minIntervalMs` apart: each success stamps `lastAttempt`
inside the same atomic step that checked it. -/
theorem runScriptCalls_separation (mxHost : String) (maxGlobal maxMx ttl minInterval : Int)
    (hmin : 0 ≤ minInterval) :
    ∀ (ts : List Int) (s : RedisThrottleState),
      List.Pairwise (· ≤ ·) ts → (∀ t ∈ ts, 0 < t) →
      (∀ t ∈ ts, s.lastAttempt mxHost ≤ t) →
      (∀ t ∈ (runScriptCalls mxHost maxGlobal maxMx ttl minInterval ts s).2,
        s.lastAttempt mxHost ≤ 0 ∨ s.lastAttempt mxHost + minInterval ≤ t) ∧
      List.Pairwise (fun a b => a + minInterval ≤ b)
        (runScriptCalls mxHost maxGlobal maxMx ttl minInterval ts s).2 := by
  intro ts
  induction ts with
  | nil =>
    intro s _ _ _
    rw [runScriptCalls]
    exact ⟨fun t ht => (nomatch ht), List.Pairwise.nil⟩
  | cons t ts ih =>
    intro s hsort hpos hlast
    obtain ⟨hhead, htail⟩ := List.pairwise_cons.mp hsort
    rw [runScriptCalls]
    dsimp only
    by_cases hs : (acquireThrottleSlotScript mxHost maxGlobal maxMx ttl t minInterval s).1.1 = 1
    · have hg := (script_acquired_iff mxHost maxGlobal maxMx ttl t minInterval s).1 hs
      have hpost := script_success_post mxHost maxGlobal maxMx ttl t minInterval s hg
      have hlastEq : (acquireThrottleSlotScript mxHost maxGlobal maxMx ttl t
          minInterval s).2.lastAttempt mxHost = t := by
        rw [hpost]
        dsimp only [updateInt]
        rw [if_pos rfl]
      have htpos : (0 : Int) < t := hpos t (List.mem_cons_self _ _)
      obtain ⟨ihA, ihB⟩ := ih
        (acquireThrottleSlotScript mxHost maxGlobal maxMx ttl t minInterval s).2 htail
        (fun u hu => hpos u (List.mem_cons_of_mem _ hu))
        (fun u hu => by rw [hlastEq]; exact hhead u hu)
      rw [if_pos hs]
      constructor
      · intro u hu
        rcases List.mem_cons.mp hu with rfl | hu'
        · rcases hg.2.1 with hl | hl
          · exact Or.inl hl
          · exact Or.inr (by omega)
        · rcases ihA u hu' with h' | h'
          · rw [hlastEq] at h'
            exact absurd h' (by omega)
          · rw [hlastEq] at h'
            rcases hg.2.1 with hl | hl
            · exact Or.inl hl
            · exact Or.inr (by omega)
      · refine List.pairwise_cons.mpr ⟨?_, ihB⟩
        intro u hu
        rcases ihA u hu with h' | h'
        · rw [hlastEq] at h'
          exact absurd h' (by omega)
        · rw [hlastEq] at h'
          exact h'
    · rw [script_reject_post mxHost maxGlobal maxMx ttl t minInterval s hs, if_neg hs,
        List.nil_append]
      exact ih s htail (fun u hu => hpos u (List.mem_cons_of_mem _ hu))
        (fun u hu => hlast u (List.mem_cons_of_mem _ hu))

/-- Claim C3 counterexample (to the claim as stated).  A penalty-blocked
invocation reports placeholder zero counts, not the current counts: on
a store whose host counter is 1 and whose penalty runs to 2000, a call
at time 1000 is rejected with `penalty_active` yet reports
`mxConcurrency = 0` while the store holds 1. -/
theorem acquireThrottleSlot_counts_counterexample :
    (acquireThrottleSlot "h" 10 5 60 1000 1000
        ⟨1, fun _ => 1, fun _ => 2000, fun _ => 0⟩).1.reason = "penalty_active" ∧
    (acquireThrottleSlot "h" 10 5 60 1000 1000
        ⟨1, fun _ => 1, fun _ => 2000, fun _ => 0⟩).1.mxConcurrency = 0 ∧
    (⟨1, fun _ => 1, fun _ => 2000, fun _ => 0⟩ : RedisThrottleState).mxConcurrency "h" = 1 ∧
    (acquireThrottleSlot "h" 10 5 60 1000 1000
        ⟨1, fun _ => 1, fun _ => 2000, fun _ => 0⟩).1.mxConcurrency ≠
      (⟨1, fun _ => 1, fun _ => 2000, fun _ => 0⟩ : RedisThrottleState).mxConcurrency "h" := by
  refine ⟨rfl, rfl, rfl, ?_⟩
  decide

/-- Claim C3, amended. The distributed backend evaluates all four gates
(penalty, per-host interval, global ceiling, host ceiling) and performs
both slot increments in one atomic server-side step (a single Lua
invocation): acquisition succeeds iff every gate passes on the
pre-state, a success installs both increments and the `lastAttempt`
stamp atomically, and a rejection leaves the store untouched and
reports which gate blocked plus a suggested wait — with the current
counts on success and on concurrency-limit rejections, and zero
placeholder counts on penalty/interval rejections.  Consequently, over
any interleaving of atomic calls, the counters never exceed the
ceilings and two successful acquisitions to the same host are at least
`perDomainMinIntervalMs` apart. -/
theorem acquireThrottleSlot_spec (mxHost : String) (maxGlobal maxMx ttl now minInterval : Int)
    (s : RedisThrottleState) (ts : List Int) :
    ((acquireThrottleSlotScript mxHost maxGlobal maxMx ttl now minInterval s).1.1 = 1 ↔
      redisGatesPass mxHost maxGlobal maxMx now minInterval s) ∧
    (redisGatesPass mxHost maxGlobal maxMx now minInterval s →
      acquireThrottleSlotScript mxHost maxGlobal maxMx ttl now minInterval s =
        ((1, 0, s.globalConcurrency + 1, s.mxConcurrency mxHost + 1, 0),
          ⟨s.globalConcurrency + 1,
            updateInt s.mxConcurrency mxHost (s.mxConcurrency mxHost + 1),
            s.penaltyUntil, updateInt s.lastAttempt mxHost now⟩)) ∧
    ((acquireThrottleSlotScript mxHost maxGlobal maxMx ttl now minInterval s).1.1 ≠ 1 →
      (acquireThrottleSlotScript mxHost maxGlobal maxMx ttl now minInterval s).2 = s) ∧
    (redisGatesPass mxHost maxGlobal maxMx now minInterval s →
      (acquireThrottleSlot mxHost maxGlobal maxMx ttl now minInterval s).1 =
        ⟨true, "success", s.globalConcurrency + 1, s.mxConcurrency mxHost + 1, none⟩) ∧
    (now < s.penaltyUntil mxHost →
      (acquireThrottleSlot mxHost maxGlobal maxMx ttl now minInterval s).1 =
        ⟨false, "penalty_active", 0, 0, some (s.penaltyUntil mxHost - now)⟩) ∧
    (s.penaltyUntil mxHost ≤ now →
      0 < s.lastAttempt mxHost → now - s.lastAttempt mxHost < minInterval →
      (acquireThrottleSlot mxHost maxGlobal maxMx ttl now minInterval s).1 =
        ⟨false, "interval_not_met", 0, 0,
          some (minInterval - (now - s.lastAttempt mxHost))⟩) ∧
    (s.penaltyUntil mxHost ≤ now →
      (s.lastAttempt mxHost ≤ 0 ∨ minInterval ≤ now - s.lastAttempt mxHost) →
      maxGlobal ≤ s.globalConcurrency →
      (acquireThrottleSlot mxHost maxGlobal maxMx ttl now minInterval s).1 =
        ⟨false, "global_limit_reached", s.globalConcurrency, s.mxConcurrency mxHost,
          some 500⟩) ∧
    (s.penaltyUntil mxHost ≤ now →
      (s.lastAttempt mxHost ≤ 0 ∨ minInterval ≤ now - s.lastAttempt mxHost) →
      s.globalConcurrency < maxGlobal → maxMx ≤ s.mxConcurrency mxHost →
      (acquireThrottleSlot mxHost maxGlobal maxMx ttl now minInterval s).1 =
        ⟨false, "mx_limit_reached", s.globalConcurrency, s.mxConcurrency mxHost, some 500⟩) ∧
    (s.globalConcurrency ≤ maxGlobal → s.mxConcurrency mxHost ≤ maxMx →
      (runScriptCalls mxHost maxGlobal maxMx ttl minInterval ts s).1.globalConcurrency ≤
        maxGlobal ∧
      (runScriptCalls mxHost maxGlobal maxMx ttl minInterval ts s).1.mxConcurrency mxHost ≤
        maxMx) ∧
    (0 ≤ minInterval → List.Pairwise (· ≤ ·) ts → (∀ t ∈ ts, 0 < t) →
      (∀ t ∈ ts, s.lastAttempt mxHost ≤ t) →
      List.Pairwise (fun a b => a + minInterval ≤ b)
        (runScriptCalls mxHost maxGlobal maxMx ttl minInterval ts s).2) := by
  refine ⟨script_acquired_iff mxHost maxGlobal maxMx ttl now minInterval s,
    script_success_post mxHost maxGlobal maxMx ttl now minInterval s,
    script_reject_post mxHost maxGlobal maxMx ttl now minInterval s,
    ?_, ?_, ?_, ?_, ?_,
    runScriptCalls_counters mxHost maxGlobal maxMx ttl minInterval ts s,
    fun hmin hsort hpos hlast =>
      (runScriptCalls_separation mxHost maxGlobal maxMx ttl minInterval hmin ts s
        hsort hpos hlast).2⟩
  · intro hg
    unfold acquireThrottleSlot
    rw [script_success_post mxHost maxGlobal maxMx ttl now minInterval s hg]
    dsimp only
    rw [if_neg (by omega)]
    rfl
  · intro hp
    unfold acquireThrottleSlot acquireThrottleSlotScript
    dsimp only
    rw [if_pos hp]
    dsimp only
    rw [if_pos (by omega)]
    rfl
  · intro hp hl hi
    unfold acquireThrottleSlot acquireThrottleSlotScript
    dsimp only
    rw [if_neg (by omega), if_pos (by exact ⟨hl, hi⟩)]
    dsimp only
    rw [if_pos (by omega)]
    rfl
  · intro hp hl hg
    unfold acquireThrottleSlot acquireThrottleSlotScript
    dsimp only
    rw [if_neg (by omega), if_neg (by rcases hl with hl | hl <;> omega), if_pos (by omega)]
    dsimp only
    rw [if_pos (by omega)]
    rfl
  · intro hp hl hg hm
    unfold acquireThrottleSlot acquireThrottleSlotScript
    dsimp only
    rw [if_neg (by omega), if_neg (by rcases hl with hl | hl <;> omega), if_neg (by omega),
      if_pos (by omega)]
    dsimp only
    rw [if_pos (by omega)]
    rfl

/-- Witness for C3 (amended): three calls at times 1000, 1500, 2600
with a 1000 ms minimum interval from the initial store — the
separation and ceiling conclusions at a concrete instance. -/
theorem acquireThrottleSlot_spec_witness :
    ((runScriptCalls "h" 10 5 60 1000 [1000, 1500, 2600]
        RedisThrottleState.initial).1.globalConcurrency ≤ 10 ∧
      (runScriptCalls "h" 10 5 60 1000 [1000, 1500, 2600]
        RedisThrottleState.initial).1.mxConcurrency "h" ≤ 5) ∧
    List.Pairwise (fun a b => a + 1000 ≤ b)
      (runScriptCalls "h" 10 5 60 1000 [1000, 1500, 2600]
        RedisThrottleState.initial).2 := by
  have h := acquireThrottleSlot_spec "h" 10 5 60 0 1000 RedisThrottleState.initial
    [1000, 1500, 2600]
  exact ⟨h.2.2.2.2.2.2.2.2.1 (by decide) (by decide),
    h.2.2.2.2.2.2.2.2.2 (by decide) (by decide) (by decide) (by decide)⟩

/-! ## Claim C7: TLS handling in `performSmtpHandshake` (smtpValidator.ts 869-1064)

The handshake is event-driven; the embedding processes the server's
complete response lines in order through the same `step` machine
(0 = banner, 1 = EHLO, 3 = MAIL FROM, 4 = RCPT TO; step 2 — the
STARTTLS upgrade — is never entered, see line 1005), accumulating the
advertised EHLO capability tokens and a transcript of the commands
written to the socket.  Byte-stream buffering and `\r\n` splitting are
outside the claims' scope: the input is the list of complete lines. -/

/-- A command written to the socket. -/
inductive SmtpCommand
  | ehlo (domain : String)
  | mailFrom (address : String)
  | rcptTo (address : String)
  | quit
deriving DecidableEq, Repr

/-- The mutable handshake state: current step, accumulated raw
response, accumulated EHLO capabilities, and the transcript of sent
commands. -/
structure HandshakeState where
  step : Nat
  rawResponse : String
  ehloCapabilities : List String
  sent : List SmtpCommand
deriving DecidableEq, Repr

/-- The state right after `socket.connect`. -/
def initialHandshakeState : HandshakeState := ⟨0, "", [], []⟩

/-- What processing one line decides: keep reading, resolve with a
typed result, or reject with an error message. -/
inductive StepResult
  | next
  | resolved (r : SmtpValidationResult)
  | rejected (message : String)
deriving DecidableEq, Repr

/-- The capability token a response line contributes:
`line.substring(4).trim().toUpperCase()` (lines 915 and 925). -/
def capToken (line : String) : String := jsToUpper (jsTrim (strDrop line 4))

/-- Process one complete response line (the body of the `for (const
line of lines)` loop, lines 903-1037). -/
def processLine (cfg : SmtpValidationConfig) (email : String) (st : HandshakeState)
    (line : String) : StepResult × HandshakeState :=
  if line = "" then (.next, st)
  else
    let rawResponse := st.rawResponse ++ line ++ "\n"
    let code := extractSmtpCode line
    if line.data.get? 3 = some '-' then
      if st.step = 1 ∧ capToken line ≠ "" then
        (.next, { st with
          rawResponse := rawResponse
          ehloCapabilities := st.ehloCapabilities ++ [capToken line] })
      else (.next, { st with rawResponse := rawResponse })
    else
      let caps :=
        if st.step = 1 ∧ code = 250 ∧ line.data.length > 4 ∧ capToken line ≠ "" ∧
            capToken line ∉ st.ehloCapabilities then
          st.ehloCapabilities ++ [capToken line]
        else st.ehloCapabilities
      if st.step = 0 then
        if code ≠ 220 then
          (.rejected ("Unexpected greeting: " ++ line),
            { st with rawResponse := rawResponse, ehloCapabilities := caps })
        else
          (.next, { st with
            step := 1
            rawResponse := rawResponse
            ehloCapabilities := caps
            sent := st.sent ++ [.ehlo cfg.heloDomain] })
      else if st.step = 1 then
        if code = 530 then
          (.resolved ⟨.unknown, [.smtp_tls_required],
              some ("530 Must issue STARTTLS first: " ++ line)⟩,
            { st with
              rawResponse := rawResponse
              ehloCapabilities := caps
              sent := st.sent ++ [.quit] })
        else if code ≠ 250 then
          (.rejected ("EHLO rejected: " ++ line),
            { st with rawResponse := rawResponse, ehloCapabilities := caps })
        else if cfg.requireTls ∧ "STARTTLS" ∉ caps then
          (.resolved ⟨.unknown, [.smtp_tls_required],
              some ("TLS required but server lacks STARTTLS capability. Capabilities: " ++
                String.intercalate ", " caps)⟩,
            { st with
              rawResponse := rawResponse
              ehloCapabilities := caps
              sent := st.sent ++ [.quit] })
        else if "STARTTLS" ∈ caps ∧ cfg.requireTls then
          (.resolved ⟨.unknown, [.smtp_tls_required],
              some "TLS required but STARTTLS upgrade not yet implemented"⟩,
            { st with
              rawResponse := rawResponse
              ehloCapabilities := caps
              sent := st.sent ++ [.quit] })
        else
          (.next, { st with
            step := 3
            rawResponse := rawResponse
            ehloCapabilities := caps
            sent := st.sent ++ [.mailFrom cfg.mailFrom] })
      else if st.step = 3 then
        if code = 530 then
          (.resolved ⟨.unknown, [.smtp_tls_required], some line⟩,
            { st with rawResponse := rawResponse, sent := st.sent ++ [.quit] })
        else if code ≠ 250 then
          (.rejected ("MAIL FROM rejected: " ++ line),
            { st with rawResponse := rawResponse })
        else
          (.next, { st with
            step := 4
            rawResponse := rawResponse
            sent := st.sent ++ [.rcptTo email] })
      else if st.step = 4 then
        (.resolved (interpretSmtpCode code line rawResponse),
          { st with rawResponse := rawResponse, sent := st.sent ++ [.quit] })
      else (.next, { st with rawResponse := rawResponse })

/-- Run the machine over the received lines, stopping at the first
resolution or rejection (the source `return`s out of the data
handler). -/
def runHandshakeLines (cfg : SmtpValidationConfig) (email : String) :
    List String → HandshakeState → StepResult × HandshakeState
  | [], st => (.next, st)
  | l :: ls, st =>
    match processLine cfg email st l with
    | (.next, st') => runHandshakeLines cfg email ls st'
    | (.resolved r, st') => (.resolved r, st')
    | (.rejected m, st') => (.rejected m, st')

/-- Invariant along a TLS-required run in which no line advertises
STARTTLS: the machine never passes the EHLO phase, never accumulates a
STARTTLS capability, and never writes MAIL FROM. -/
def NoTlsInv (st : HandshakeState) : Prop :=
  (st.step = 0 ∨ st.step = 1) ∧ "STARTTLS" ∉ st.ehloCapabilities ∧
  ∀ a, SmtpCommand.mailFrom a ∉ st.sent

theorem processLine_noTls (cfg : SmtpValidationConfig) (email : String)
    (st : HandshakeState) (line : String) (hreq : cfg.requireTls = true)
    (hline : capToken line ≠ "STARTTLS") (hinv : NoTlsInv st) :
    NoTlsInv (processLine cfg email st line).2 := by
  obtain ⟨hstep, hmem, hsent⟩ := hinv
  unfold processLine
  by_cases hl0 : line = ""
  · rw [if_pos hl0]
    exact ⟨hstep, hmem, hsent⟩
  · rw [if_neg hl0]
    dsimp only
    by_cases hml : line.data.get? 3 = some '-'
    · rw [if_pos hml]
      by_cases hc : st.step = 1 ∧ capToken line ≠ ""
      · rw [if_pos hc]
        refine ⟨hstep, ?_, hsent⟩
        dsimp only
        intro hmem'
        rcases List.mem_append.mp hmem' with h' | h'
        · exact hmem h'
        · exact hline (List.mem_singleton.mp h').symm
      · rw [if_neg hc]
        exact ⟨hstep, hmem, hsent⟩
    · rw [if_neg hml]
      have hcapsN : "STARTTLS" ∉ (if st.step = 1 ∧ extractSmtpCode line = 250 ∧
          line.data.length > 4 ∧ capToken line ≠ "" ∧ capToken line ∉ st.ehloCapabilities then
          st.ehloCapabilities ++ [capToken line] else st.ehloCapabilities) := by
        split
        · intro hmem'
          rcases List.mem_append.mp hmem' with h' | h'
          · exact hmem h'
          · exact hline (List.mem_singleton.mp h').symm
        · exact hmem
      rcases hstep with hs0 | hs1
      · rw [if_pos hs0]
        by_cases h220 : extractSmtpCode line ≠ 220
        · rw [if_pos h220]
          exact ⟨Or.inl hs0, hcapsN, hsent⟩
        · rw [if_neg h220]
          refine ⟨Or.inr rfl, hcapsN, fun a hmem' => ?_⟩
          dsimp only at hmem'
          rcases List.mem_append.mp hmem' with h' | h'
          · exact hsent a h'
          · exact SmtpCommand.noConfusion (List.mem_singleton.mp h')
      · rw [if_neg (by omega : ¬ st.step = 0), if_pos hs1]
        by_cases h530 : extractSmtpCode line = 530
        · rw [if_pos h530]
          refine ⟨Or.inr hs1, hcapsN, fun a hmem' => ?_⟩
          dsimp only at hmem'
          rcases List.mem_append.mp hmem' with h' | h'
          · exact hsent a h'
          · exact SmtpCommand.noConfusion (List.mem_singleton.mp h')
        · rw [if_neg h530]
          by_cases h250 : extractSmtpCode line ≠ 250
          · rw [if_pos h250]
            exact ⟨Or.inr hs1, hcapsN, hsent⟩
          · rw [if_neg h250, if_pos ⟨hreq, hcapsN⟩]
            refine ⟨Or.inr hs1, hcapsN, fun a hmem' => ?_⟩
            dsimp only at hmem'
            rcases List.mem_append.mp hmem' with h' | h'
            · exact hsent a h'
            · exact SmtpCommand.noConfusion (List.mem_singleton.mp h')

theorem runHandshakeLines_noTls (cfg : SmtpValidationConfig) (email : String)
    (hreq : cfg.requireTls = true) :
    ∀ (lines : List String) (st : HandshakeState),
      (∀ l ∈ lines, capToken l ≠ "STARTTLS") → NoTlsInv st →
      NoTlsInv (runHandshakeLines cfg email lines st).2 := by
  intro lines
  induction lines with
  | nil => intro st _ hinv; exact hinv
  | cons l ls ih =>
    intro st hall hinv
    have h1 := processLine_noTls cfg email st l hreq (hall l (List.mem_cons_self _ _)) hinv
    rw [runHandshakeLines]
    rcases hp : processLine cfg email st l with ⟨res, st'⟩
    rw [hp] at h1
    dsimp only at h1
    cases res with
    | next =>
      dsimp only
      exact ih st' (fun u hu => hall u (List.mem_cons_of_mem _ hu)) h1
    | resolved r => exact h1
    | rejected m => exact h1

/-- Claim C7. A `530` (TLS required first) response to EHLO or to MAIL
FROM resolves the handshake as `unknown` with reason
`smtp_tls_required` — never `invalid`; when TLS is required and the
final EHLO response leaves the capability set without `STARTTLS`, the
engine resolves the same way right there and the only further command
written is `QUIT`; and over a whole run in which no response line
carries a STARTTLS capability token, `MAIL FROM` is never
transmitted. -/
theorem performSmtpHandshake_tls_spec (cfg : SmtpValidationConfig) (email : String)
    (st : HandshakeState) (line : String) (lines : List String) :
    (st.step = 1 → line ≠ "" → line.data.get? 3 ≠ some '-' → extractSmtpCode line = 530 →
      (processLine cfg email st line).1 =
        .resolved ⟨.unknown, [.smtp_tls_required],
          some ("530 Must issue STARTTLS first: " ++ line)⟩) ∧
    (st.step = 3 → line ≠ "" → line.data.get? 3 ≠ some '-' → extractSmtpCode line = 530 →
      (processLine cfg email st line).1 =
        .resolved ⟨.unknown, [.smtp_tls_required], some line⟩) ∧
    (st.step = 1 → line ≠ "" → line.data.get? 3 ≠ some '-' → extractSmtpCode line = 250 →
      cfg.requireTls = true → "STARTTLS" ∉ st.ehloCapabilities →
      capToken line ≠ "STARTTLS" →
      (∃ raw, (processLine cfg email st line).1 =
        .resolved ⟨.unknown, [.smtp_tls_required], raw⟩) ∧
      (processLine cfg email st line).2.sent = st.sent ++ [.quit]) ∧
    (cfg.requireTls = true → (∀ l ∈ lines, capToken l ≠ "STARTTLS") →
      ∀ a, SmtpCommand.mailFrom a ∉
        (runHandshakeLines cfg email lines initialHandshakeState).2.sent) := by
  refine ⟨?_, ?_, ?_, ?_⟩
  · intro hs hl0 hml hcode
    unfold processLine
    rw [if_neg hl0]
    dsimp only
    rw [if_neg hml, hs, hcode]
    simp
  · intro hs hl0 hml hcode
    unfold processLine
    rw [if_neg hl0]
    dsimp only
    rw [if_neg hml, hs, hcode]
    simp
  · intro hs hl0 hml hcode hreq hmem hcap
    have hcapsN : ∀ (c : Prop) (inst : Decidable c),
        "STARTTLS" ∉ (if c then st.ehloCapabilities ++ [capToken line]
          else st.ehloCapabilities) := by
      intro c inst
      split
      · intro hmem'
        rcases List.mem_append.mp hmem' with h' | h'
        · exact hmem h'
        · exact hcap (List.mem_singleton.mp h').symm
      · exact hmem
    unfold processLine
    rw [if_neg hl0]
    dsimp only
    rw [if_neg hml, hs, hcode]
    rw [if_neg (by omega : ¬ (1 : Nat) = 0), if_pos rfl,
      if_neg (by omega : ¬ (250 : Nat) = 530), if_neg (by simp),
      if_pos ⟨hreq, hcapsN _ _⟩]
    exact ⟨⟨_, rfl⟩, rfl⟩
  · intro hreq hall a
    exact (runHandshakeLines_noTls cfg email hreq lines initialHandshakeState hall
      ⟨Or.inl rfl, fun h => (List.not_mem_nil _ h), fun b h => (List.not_mem_nil _ h)⟩).2.2 a

/-- The sample configuration with TLS required. -/
def tlsRequiredConfig : SmtpValidationConfig := { sampleConfig with requireTls := true }

/-- Witness for C7: a greeting and an EHLO reply advertising only SIZE;
with TLS required, MAIL FROM is never written. -/
theorem performSmtpHandshake_tls_spec_witness :
    SmtpCommand.mailFrom "probe@validator.example.com" ∉
      (runHandshakeLines tlsRequiredConfig "user@example.com"
        ["220 mx.example.com ESMTP", "250-mx.example.com", "250 SIZE 35882577"]
        initialHandshakeState).2.sent := by
  exact (performSmtpHandshake_tls_spec tlsRequiredConfig "user@example.com"
    initialHandshakeState ""
    ["220 mx.example.com ESMTP", "250-mx.example.com", "250 SIZE 35882577"]).2.2.2
    (by decide) (by decide) "probe@validator.example.com"

/-! ## Claim C8: MX ordering (`validateSmtp` step 2, lines 634-661)

`sort((a, b) => a.priority - b.priority)` is an ascending stable sort,
modelled by `List.mergeSort`.  The randomization pass walks the sorted
array finding each maximal run `[i, j)` of equal priority and applies a
Fisher-Yates shuffle within that run (for `k` from `j-1` down to
`i+1`, swap position `k` with a uniform position in `[i, k]`).  The
embedding works run-by-run: `groupRuns` is the `i`/`j` run detection,
and `fisherYates` is the in-run shuffle in run-local coordinates,
driven by an arbitrary draw function `rnd` (the draw for position `k`
taken modulo `k + 1`, the size of `[i, k]`). -/

/-- The `mxResult.mxRecords.sort((a, b) => a.priority - b.priority)`. -/
def sortedByPriority (records : List MxRecord) : List MxRecord :=
  records.mergeSort (fun a b => a.priority ≤ b.priority)

/-- The destructuring swap `[arr[k], arr[r]] = [arr[r], arr[k]]`;
out-of-range indices leave the list unchanged (never hit here). -/
def listSwap (l : List MxRecord) (i j : Nat) : List MxRecord :=
  match l.get? i, l.get? j with
  | some a, some b => (l.set i b).set j a
  | _, _ => l

theorem cons_set_perm : ∀ (l : List MxRecord) (j : Nat) (a b : MxRecord),
    l.get? j = some b → List.Perm (b :: l.set j a) (a :: l) := by
  intro l
  induction l with
  | nil => intro j a b h; exact (nomatch h)
  | cons c t ih =>
    intro j a b h
    cases j with
    | zero =>
      injection h with hcb
      subst hcb
      exact List.Perm.swap a c t
    | succ m =>
      have ihm := ih m a b h
      have s1 : List.Perm (b :: c :: t.set m a) (c :: b :: t.set m a) :=
        List.Perm.swap c b (t.set m a)
      have s2 : List.Perm (c :: b :: t.set m a) (c :: a :: t) := ihm.cons c
      have s3 : List.Perm (c :: a :: t) (a :: c :: t) := List.Perm.swap a c t
      exact s1.trans (s2.trans s3)

theorem set_set_perm : ∀ (l : List MxRecord) (i j : Nat) (a b : MxRecord),
    l.get? i = some a → l.get? j = some b → List.Perm ((l.set i b).set j a) l := by
  intro l
  induction l with
  | nil => intro i j a b ha _; exact (nomatch ha)
  | cons c t ih =>
    intro i j a b ha hb
    cases i with
    | zero =>
      injection ha with hac
      subst hac
      cases j with
      | zero =>
        injection hb with hbc
        subst hbc
        exact List.Perm.refl _
      | succ m =>
        exact cons_set_perm t m _ b hb
    | succ n =>
      cases j with
      | zero =>
        injection hb with hbc
        subst hbc
        exact cons_set_perm t n _ a ha
      | succ m =>
        exact (ih n m a b ha hb).cons c

theorem listSwap_perm (l : List MxRecord) (i j : Nat) : List.Perm (listSwap l i j) l := by
  cases ha : l.get? i with
  | none =>
    have heq : listSwap l i j = l := by
      unfold listSwap
      rw [ha]
    rw [heq]
  | some a =>
    cases hb : l.get? j with
    | none =>
      have heq : listSwap l i j = l := by
        unfold listSwap
        rw [ha, hb]
      rw [heq]
    | some b =>
      have heq : listSwap l i j = (l.set i b).set j a := by
        unfold listSwap
        rw [ha, hb]
      rw [heq]
      exact set_set_perm l i j a b ha hb

/-- The in-run Fisher-Yates pass, `k` descending. -/
def fisherYatesAux (rnd : Nat → Nat) : Nat → List MxRecord → List MxRecord
  | 0, g => g
  | k + 1, g => fisherYatesAux rnd k (listSwap g (k + 1) (rnd (k + 1) % (k + 2)))

/-- Shuffle one equal-priority run, in run-local coordinates. -/
def fisherYates (rnd : Nat → Nat) (g : List MxRecord) : List MxRecord :=
  fisherYatesAux rnd (g.length - 1) g

theorem fisherYatesAux_perm (rnd : Nat → Nat) :
    ∀ (k : Nat) (g : List MxRecord), List.Perm (fisherYatesAux rnd k g) g := by
  intro k
  induction k with
  | zero => intro g; exact List.Perm.refl g
  | succ n ih =>
    intro g
    rw [fisherYatesAux]
    exact (ih _).trans (listSwap_perm g (n + 1) (rnd (n + 1) % (n + 2)))

theorem fisherYates_perm (rnd : Nat → Nat) (g : List MxRecord) :
    List.Perm (fisherYates rnd g) g :=
  fisherYatesAux_perm rnd (g.length - 1) g

/-- Maximal runs of equal priority (the `i`/`j` scan of lines 639-656). -/
def groupRuns : List MxRecord → List (List MxRecord)
  | [] => []
  | a :: rest =>
    (a :: rest.takeWhile (fun x => x.priority == a.priority)) ::
      groupRuns (rest.dropWhile (fun x => x.priority == a.priority))
  termination_by l => l.length
  decreasing_by
    simp only [List.length_cons]
    exact Nat.lt_succ_of_le (List.Sublist.length_le (List.dropWhile_sublist _))

theorem groupRuns_flatten (l : List MxRecord) : (groupRuns l).flatten = l := by
  have H : ∀ (n : Nat) (l : List MxRecord), l.length = n → (groupRuns l).flatten = l := by
    intro n
    induction n using Nat.strong_induction_on with
    | _ n ih =>
      intro l hn
      cases l with
      | nil => simp [groupRuns]
      | cons a rest =>
        rw [groupRuns, List.flatten_cons,
          ih (rest.dropWhile (fun x => x.priority == a.priority)).length
            (by
              subst hn
              simp only [List.length_cons]
              exact Nat.lt_succ_of_le (List.Sublist.length_le (List.dropWhile_sublist _)))
            _ rfl]
        exact congrArg (a :: ·) (List.takeWhile_append_dropWhile _ _)
  exact H l.length l rfl

theorem groupRuns_const (l : List MxRecord) : ∀ g ∈ groupRuns l,
    ∃ p, ∀ x ∈ g, x.priority = p := by
  have H : ∀ (n : Nat) (l : List MxRecord), l.length = n → ∀ g ∈ groupRuns l,
      ∃ p, ∀ x ∈ g, x.priority = p := by
    intro n
    induction n using Nat.strong_induction_on with
    | _ n ih =>
      intro l hn g hg
      cases l with
      | nil => rw [groupRuns] at hg; exact (nomatch hg)
      | cons a rest =>
        rw [groupRuns] at hg
        rcases List.mem_cons.mp hg with rfl | hg'
        · refine ⟨a.priority, fun x hx => ?_⟩
          rcases List.mem_cons.mp hx with rfl | hx'
          · rfl
          · simpa using List.mem_takeWhile_imp hx'
        · exact ih (rest.dropWhile (fun x => x.priority == a.priority)).length
            (by
              subst hn
              simp only [List.length_cons]
              exact Nat.lt_succ_of_le (List.Sublist.length_le (List.dropWhile_sublist _)))
            _ rfl g hg'
  exact H l.length l rfl

/-- Shuffle every run, giving each its own draw stream. -/
def shuffleGroups (rnd : Nat → Nat → Nat) : Nat → List (List MxRecord) → List (List MxRecord)
  | _, [] => []
  | gi, g :: gs => fisherYates (rnd gi) g :: shuffleGroups rnd (gi + 1) gs

/-- The same-priority randomization pass (lines 638-657). -/
def shuffleSamePriority (rnd : Nat → Nat → Nat) (l : List MxRecord) : List MxRecord :=
  (shuffleGroups rnd 0 (groupRuns l)).flatten

theorem shuffleGroups_flatten_perm (rnd : Nat → Nat → Nat) :
    ∀ (gs : List (List MxRecord)) (gi : Nat),
      List.Perm (shuffleGroups rnd gi gs).flatten gs.flatten := by
  intro gs
  induction gs with
  | nil => intro gi; exact List.Perm.refl _
  | cons g rest ih =>
    intro gi
    rw [shuffleGroups, List.flatten_cons, List.flatten_cons]
    exact (fisherYates_perm (rnd gi) g).append (ih (gi + 1))

theorem shuffleSamePriority_perm (rnd : Nat → Nat → Nat) (l : List MxRecord) :
    List.Perm (shuffleSamePriority rnd l) l := by
  have h := shuffleGroups_flatten_perm rnd (groupRuns l) 0
  rw [groupRuns_flatten] at h
  exact h

theorem fisherYates_map_priority (rnd : Nat → Nat) (g : List MxRecord) (p : Int)
    (hconst : ∀ x ∈ g, x.priority = p) :
    (fisherYates rnd g).map MxRecord.priority = g.map MxRecord.priority := by
  have hperm := fisherYates_perm rnd g
  have h1 : (fisherYates rnd g).map MxRecord.priority = List.replicate g.length p := by
    rw [List.eq_replicate_iff]
    refine ⟨by rw [List.length_map, hperm.length_eq], fun b hb => ?_⟩
    obtain ⟨x, hx, rfl⟩ := List.mem_map.mp hb
    exact hconst x (hperm.mem_iff.mp hx)
  have h2 : g.map MxRecord.priority = List.replicate g.length p := by
    rw [List.eq_replicate_iff]
    refine ⟨List.length_map _ _, fun b hb => ?_⟩
    obtain ⟨x, hx, rfl⟩ := List.mem_map.mp hb
    exact hconst x hx
  rw [h1, h2]

theorem shuffleGroups_map_priority (rnd : Nat → Nat → Nat) :
    ∀ (gs : List (List MxRecord)) (gi : Nat),
      (∀ g ∈ gs, ∃ p, ∀ x ∈ g, x.priority = p) →
      (shuffleGroups rnd gi gs).map (List.map MxRecord.priority) =
        gs.map (List.map MxRecord.priority) := by
  intro gs
  induction gs with
  | nil => intro gi _; rfl
  | cons g rest ih =>
    intro gi hconst
    obtain ⟨p, hp⟩ := hconst g (List.mem_cons_self _ _)
    rw [shuffleGroups, List.map_cons, List.map_cons,
      fisherYates_map_priority (rnd gi) g p hp,
      ih (gi + 1) (fun g' hg' => hconst g' (List.mem_cons_of_mem _ hg'))]

/-- The randomization permutes entries only within equal-priority
groups: the sequence of priorities is untouched. -/
theorem shuffleSamePriority_map_priority (rnd : Nat → Nat → Nat) (l : List MxRecord) :
    (shuffleSamePriority rnd l).map MxRecord.priority = l.map MxRecord.priority := by
  calc (shuffleGroups rnd 0 (groupRuns l)).flatten.map MxRecord.priority
      = ((shuffleGroups rnd 0 (groupRuns l)).map (List.map MxRecord.priority)).flatten :=
        List.map_flatten _ _
    _ = ((groupRuns l).map (List.map MxRecord.priority)).flatten := by
        rw [shuffleGroups_map_priority rnd (groupRuns l) 0 (groupRuns_const l)]
    _ = (groupRuns l).flatten.map MxRecord.priority := (List.map_flatten _ _).symm
    _ = l.map MxRecord.priority := by rw [groupRuns_flatten]

theorem sortedByPriority_pairwise (records : List MxRecord) :
    List.Pairwise (fun a b => a.priority ≤ b.priority) (sortedByPriority records) := by
  have h := @List.sorted_mergeSort MxRecord (fun a b : MxRecord => a.priority ≤ b.priority)
    (fun a b c h1 h2 => by
      simp only [decide_eq_true_eq] at h1 h2 ⊢
      omega)
    (fun a b => by
      simp only [Bool.or_eq_true, decide_eq_true_eq]
      omega)
    records
  exact h.imp (fun hab => by simpa using hab)

theorem pairwise_of_map_priority_eq {l₁ l₂ : List MxRecord}
    (hmap : l₁.map MxRecord.priority = l₂.map MxRecord.priority)
    (hp : List.Pairwise (fun a b => a.priority ≤ b.priority) l₂) :
    List.Pairwise (fun a b => a.priority ≤ b.priority) l₁ := by
  have h2 : List.Pairwise (· ≤ ·) (l₂.map MxRecord.priority) := List.pairwise_map.mpr hp
  rw [← hmap] at h2
  exact List.pairwise_map.mp h2

/-- Steps 2a-2c of `validateSmtp`: sort ascending, optionally shuffle
within equal-priority groups, truncate to `maxMxAttempts`. -/
def computeMxToTry (cfg : SmtpValidationConfig) (rnd : Nat → Nat → Nat)
    (records : List MxRecord) : List MxRecord :=
  let sortedMx := sortedByPriority records
  let shuffled :=
    if cfg.randomizeSamePriority then shuffleSamePriority rnd sortedMx else sortedMx
  shuffled.take cfg.maxMxAttempts

/-- Claim C8. The attempted list is a prefix of length at most
`maxMxAttempts` of a permutation of the input in which priorities are
ascending; when randomization is on, the shuffle permutes entries only
within equal-priority groups (the priority sequence equals the plain
sorted one), so for exchangers `[mx1/10, mx2/10, mx3/20]` with max
attempts 2 the priority-20 host is never attempted first — for every
draw stream. -/
theorem computeMxToTry_spec (cfg : SmtpValidationConfig) (rnd : Nat → Nat → Nat)
    (records : List MxRecord) :
    (computeMxToTry cfg rnd records).length ≤ cfg.maxMxAttempts ∧
    (∃ full,
      computeMxToTry cfg rnd records = full.take cfg.maxMxAttempts ∧
      List.Perm full records ∧
      List.Pairwise (fun a b => a.priority ≤ b.priority) full ∧
      full.map MxRecord.priority = (sortedByPriority records).map MxRecord.priority) ∧
    (cfg.randomizeSamePriority = true → cfg.maxMxAttempts = 2 →
      (computeMxToTry cfg rnd [⟨"mx1", 10⟩, ⟨"mx2", 10⟩, ⟨"mx3", 20⟩]).head? ≠
        some ⟨"mx3", 20⟩) := by
  refine ⟨?_, ?_, ?_⟩
  · simp only [computeMxToTry, List.length_take]
    exact min_le_left _ _
  · refine ⟨if cfg.randomizeSamePriority then
        shuffleSamePriority rnd (sortedByPriority records) else sortedByPriority records,
      rfl, ?_, ?_, ?_⟩
    · split
      · exact (shuffleSamePriority_perm rnd _).trans (List.mergeSort_perm records _)
      · exact List.mergeSort_perm records _
    · split
      · exact pairwise_of_map_priority_eq
          (shuffleSamePriority_map_priority rnd _) (sortedByPriority_pairwise records)
      · exact sortedByPriority_pairwise records
    · split
      · exact shuffleSamePriority_map_priority rnd _
      · rfl
  · intro hr hm
    have hsorted : sortedByPriority [⟨"mx1", 10⟩, ⟨"mx2", 10⟩, ⟨"mx3", 20⟩] =
        [⟨"mx1", 10⟩, ⟨"mx2", 10⟩, ⟨"mx3", 20⟩] :=
      List.mergeSort_of_sorted (by decide)
    have hmap : (shuffleSamePriority rnd
        (sortedByPriority [⟨"mx1", 10⟩, ⟨"mx2", 10⟩, ⟨"mx3", 20⟩])).map MxRecord.priority =
        [10, 10, 20] := by
      rw [shuffleSamePriority_map_priority, hsorted]
      rfl
    simp only [computeMxToTry]
    rw [hr, if_pos rfl, hm]
    cases hsh : shuffleSamePriority rnd
        (sortedByPriority [⟨"mx1", 10⟩, ⟨"mx2", 10⟩, ⟨"mx3", 20⟩]) with
    | nil => rw [hsh] at hmap; cases hmap
    | cons x rest =>
      rw [hsh] at hmap
      simp only [List.map_cons, List.cons.injEq] at hmap
      intro heq
      have hhead : (List.take 2 (x :: rest)).head? = some x := rfl
      rw [hhead] at heq
      injection heq with hx
      rw [hx] at hmap
      exact absurd hmap.1 (by decide)

/-- Witness for C8: with max attempts 2 and randomization on, `mx3`
(priority 20) is not first, for the constant-zero draw stream. -/
theorem computeMxToTry_spec_witness :
    (computeMxToTry { sampleConfig with maxMxAttempts := 2 } (fun _ _ => 0)
      [⟨"mx1", 10⟩, ⟨"mx2", 10⟩, ⟨"mx3", 20⟩]).head? ≠ some ⟨"mx3", 20⟩ := by
  exact (computeMxToTry_spec { sampleConfig with maxMxAttempts := 2 } (fun _ _ => 0)
    [⟨"mx1", 10⟩, ⟨"mx2", 10⟩, ⟨"mx3", 20⟩]).2.2 rfl rfl

/-! ## Claim C10: throttle feedback in `validateSmtpSingle` (lines 811-863)

After the slot is acquired, `validateSmtpSingle` races the handshake
against the overall timeout; the embedding takes that race's outcome —
a typed result, or a raised error — as input and records the throttle
calls it makes. -/

/-- A throttle call made by `validateSmtpSingle`. -/
inductive ThrottleEvent
  | recordSuccessEvt (host : String)
  | recordFailureEvt (host : String) (severe : Bool)
  | releaseSlotEvt (host : String)
deriving DecidableEq, Repr

/-- The body of `validateSmtpSingle` (lines 825-862): any typed result
records success; a raised error records failure with
`isHardBlockError` severity and maps the error to a typed result; the
`finally` always releases the slot. -/
def validateSmtpSingleModel (mxHost : String)
    (outcome : Except JsError SmtpValidationResult) :
    SmtpValidationResult × List ThrottleEvent :=
  match outcome with
  | .ok result => (result, [.recordSuccessEvt mxHost, .releaseSlotEvt mxHost])
  | .error e =>
    (mapErrorToResult e,
      [.recordFailureEvt mxHost (isHardBlockError e), .releaseSlotEvt mxHost])

/-- Claim C10. `recordSuccess` is called whenever the handshake resolves
to any typed result — including an `invalid` (5xx) or
`temporarily_unavailable` (4xx) RCPT verdict — and `recordFailure`
only when the handshake raises; so a mailbox rejection or greylisting
response advances the host's success streak (and decays its failure
count) rather than its failure count: throttle "success" means the
connection-level conversation completed, not that the mailbox
exists. -/
theorem validateSmtpSingle_throttle_spec (mxHost : String)
    (outcome : Except JsError SmtpValidationResult) (s : InMemoryThrottleStore)
    (st : MxState) :
    (∀ r, outcome = .ok r →
      validateSmtpSingleModel mxHost outcome =
        (r, [.recordSuccessEvt mxHost, .releaseSlotEvt mxHost]) ∧
      ∀ sev, ThrottleEvent.recordFailureEvt mxHost sev ∉
        (validateSmtpSingleModel mxHost outcome).2) ∧
    (∀ e, outcome = .error e →
      validateSmtpSingleModel mxHost outcome =
        (mapErrorToResult e,
          [.recordFailureEvt mxHost (isHardBlockError e), .releaseSlotEvt mxHost]) ∧
      ThrottleEvent.recordSuccessEvt mxHost ∉ (validateSmtpSingleModel mxHost outcome).2) ∧
    (s.mxStates (jsToLower mxHost) = some st →
      (recordSuccess s mxHost).mxStates (jsToLower mxHost) = some (recordSuccessState st) ∧
      (recordSuccessState st).successCount = st.successCount + 1 ∧
      (recordSuccessState st).failures = max 0 (st.failures - 1)) := by
  refine ⟨?_, ?_, ?_⟩
  · rintro r rfl
    refine ⟨rfl, fun sev hmem => ?_⟩
    simp [validateSmtpSingleModel] at hmem
  · rintro e rfl
    refine ⟨rfl, fun hmem => ?_⟩
    simp [validateSmtpSingleModel] at hmem
  · intro hlook
    refine ⟨?_, ?_, ?_⟩
    · rw [recordSuccess, hlook]
      simp [updateState]
    · unfold recordSuccessState
      dsimp only
      split <;> rfl
    · unfold recordSuccessState
      dsimp only
      split <;> rfl

/-- Witness for C10: an `invalid` (5xx) RCPT verdict still records
throttle success and never failure. -/
theorem validateSmtpSingle_throttle_spec_witness :
    validateSmtpSingleModel "mx.example.com"
        (.ok ⟨.invalid, [.smtp_invalid], none⟩) =
      (⟨.invalid, [.smtp_invalid], none⟩,
        [.recordSuccessEvt "mx.example.com", .releaseSlotEvt "mx.example.com"]) ∧
    ∀ sev, ThrottleEvent.recordFailureEvt "mx.example.com" sev ∉
      (validateSmtpSingleModel "mx.example.com"
        (.ok ⟨.invalid, [.smtp_invalid], none⟩)).2 := by
  exact (validateSmtpSingle_throttle_spec "mx.example.com"
    (.ok ⟨.invalid, [.smtp_invalid], none⟩) InMemoryThrottleStore.empty
    ⟨"", 0, 1, 0, 0, none, none, 0, 0⟩).1 ⟨.invalid, [.smtp_invalid], none⟩ rfl

end EmailValidator
